import Mathlib

/-!
Verification of the content-extraction pipeline of the reverse-link-preview
browser extension: a shallow embedding of the JavaScript sources in Lean 4,
with theorems checking the specification claims against the embedded code.

Embedding conventions:
* machine numbers are `Nat`/`Int`; the fractional scores computed with JS
  doubles are embedded as exact rationals (`Rat`) — no claim below depends on
  double rounding;
* fallible JS code (`throw`) is embedded as `Except String`, carrying the
  error message;
* the DOM is a pure tree; element identity (JS `!==`) is decided by the
  element's path from the root;
* effects (`Date.now()`, `new Date().toISOString()`) are passed as explicit
  arguments.
-/

namespace JsPrim

/-- `dropWhile` does not lengthen a list (termination helper). -/
theorem dropWhile_len_le (p : Char → Bool) (t : List Char) :
    (t.dropWhile p).length ≤ t.length := by
  induction t with
  | nil => simp [List.dropWhile]
  | cons c t ih =>
    simp only [List.dropWhile]
    split
    · exact Nat.le_succ_of_le ih
    · simp

/-- JS whitespace class `\s` restricted to the ASCII characters the sources
can actually meet (space, tab, LF, CR, VT, FF). -/
def isWs (c : Char) : Bool :=
  c = ' ' || c = '\t' || c = '\n' || c = '\r' || c = Char.ofNat 11 || c = Char.ofNat 12

/-- `String.prototype.trim` over the ASCII whitespace class. -/
def jsTrim (s : String) : String :=
  ⟨(s.data.dropWhile isWs).reverse.dropWhile isWs |>.reverse⟩

/-- Leftmost position at which `sub` occurs in `hay`, if any. -/
def firstMatchPos (hay sub : List Char) : Option Nat :=
  match hay with
  | [] => if sub = [] then some 0 else none
  | _ :: t =>
    if sub.isPrefixOf hay then some 0
    else (firstMatchPos t sub).map (· + 1)

/-- `String.prototype.includes`. -/
def jsIncludes (s sub : String) : Bool :=
  (firstMatchPos s.data sub.data).isSome

/-- `String.prototype.indexOf` (−1 encoded as `none`). -/
def jsIndexOf (s sub : String) : Option Nat :=
  firstMatchPos s.data sub.data

/-- Rightmost position at which `sub` occurs in `hay`, if any
(`String.prototype.lastIndexOf`, −1 encoded as `none`). -/
def lastMatchPos (hay sub : List Char) : Option Nat :=
  match hay with
  | [] => if sub = [] then some 0 else none
  | _ :: t =>
    match (lastMatchPos t sub).map (· + 1) with
    | some i => some i
    | none => if sub.isPrefixOf hay then some 0 else none

/-- `String.prototype.lastIndexOf`. -/
def jsLastIndexOf (s sub : String) : Option Nat :=
  lastMatchPos s.data sub.data

/-- `String.prototype.startsWith`. -/
def jsStartsWith (s pre : String) : Bool :=
  pre.data.isPrefixOf s.data

/-- `String.prototype.endsWith`. -/
def jsEndsWith (s suf : String) : Bool :=
  suf.data.isSuffixOf s.data

/-- `String.prototype.toLowerCase` (ASCII). -/
def jsToLower (s : String) : String :=
  ⟨s.data.map Char.toLower⟩

/-- `String.prototype.toUpperCase` (ASCII). -/
def jsToUpper (s : String) : String :=
  ⟨s.data.map Char.toUpper⟩

/-- `String.prototype.substr(0, len)` (the sources only use start 0). -/
def jsSubstr (s : String) (len : Nat) : String :=
  ⟨s.data.take len⟩

/-- Split at every maximal run of characters satisfying `p`
(the JS `split(/\s+/)` semantics: empty leading/trailing pieces are kept).
The fuel (initialised to the input length + 1, which always suffices) keeps
the recursion structural. -/
def splitRunsF (p : Char → Bool) : Nat → List Char → List (List Char)
  | 0, _ => [[]]
  | _ + 1, [] => [[]]
  | fuel + 1, c :: t =>
    if p c then
      [] :: splitRunsF p fuel (t.dropWhile p)
    else
      match splitRunsF p fuel t with
      | [] => [[c]]
      | piece :: rest => (c :: piece) :: rest

/-- Split `hay` at every maximal run of characters satisfying `p`. -/
def splitRuns (p : Char → Bool) (l : List Char) : List (List Char) :=
  splitRunsF p (l.length + 1) l

/-- `String.prototype.split(/\s+/)`. -/
def jsSplitWs (s : String) : List String :=
  (splitRuns isWs s.data).map (fun l => ⟨l⟩)

/-- Character is an ASCII decimal digit. -/
def isDigit (c : Char) : Bool := '0' ≤ c && c ≤ '9'

/-- JS `\w` word-character class: `[A-Za-z0-9_]`. -/
def isWordChar (c : Char) : Bool :=
  ('a' ≤ c && c ≤ 'z') || ('A' ≤ c && c ≤ 'Z') || isDigit c || c = '_'

/-- Digits-to-Nat helper. -/
def digitsToNat (l : List Char) : Nat :=
  l.foldl (fun a c => a * 10 + (c.toNat - '0'.toNat)) 0

/-- `parseInt(s, 10)`: skip leading whitespace, optional sign, then a maximal
digit prefix; `NaN` is encoded as `none`. -/
def jsParseInt (s : String) : Option Int :=
  let l := s.data.dropWhile isWs
  let signed : Bool × List Char :=
    match l with
    | '-' :: t => (true, t)
    | '+' :: t => (false, t)
    | _ => (false, l)
  let ds := signed.2.takeWhile isDigit
  if ds = [] then none
  else some (if signed.1 then -(digitsToNat ds : Int) else (digitsToNat ds : Int))

/-- JS truthiness of a string. -/
def strTruthy (s : String) : Bool := s ≠ ""

/-- Fuelled body of the global literal replace (the initial fuel always
suffices). -/
def jsReplaceAllF (pat rep : List Char) : Nat → List Char → List Char
  | 0, l => l
  | _ + 1, [] => []
  | fuel + 1, c :: t =>
    if pat ≠ [] ∧ pat.isPrefixOf (c :: t) then
      rep ++ jsReplaceAllF pat rep fuel (t.drop (pat.length - 1))
    else c :: jsReplaceAllF pat rep fuel t

/-- `String.prototype.replace` with a global regex made of literal
characters: leftmost, non-overlapping. -/
def jsReplaceAll (s pat rep : String) : String :=
  ⟨jsReplaceAllF pat.data rep.data (s.data.length + 1) s.data⟩

/-- `Array.prototype.join(' ')`. -/
def joinSp : List String → String
  | [] => ""
  | [x] => x
  | x :: y :: rest => x ++ " " ++ joinSp (y :: rest)

/-- Insert `x` after every element the comparator lets stay before it
(helper of the stable sort below). -/
def insertStable (le : α → α → Bool) (x : α) : List α → List α
  | [] => [x]
  | y :: t => if le y x then y :: insertStable le x t else x :: y :: t

/-- `Array.prototype.sort(cmp)` with a consistent comparator, which the JS
specification requires to be stable: `le a b` stands for `cmp(a, b) ≤ 0`
(`a` may stay before `b`). -/
def jsSortBy (le : α → α → Bool) (l : List α) : List α :=
  l.foldl (fun acc x => insertStable le x acc) []

end JsPrim

/-! ## JS `Map` (insertion-ordered association list)

Model of the `Map` instance held by `PreviewGenerator`
(src/services/previewGenerator.js): `set` on an existing key overwrites in
place, otherwise appends; iteration order is insertion order. -/

namespace JsMap

/-- `Map.prototype.get` (first — and only — binding of the key). -/
def get (m : List (String × β)) (k : String) : Option β :=
  match m with
  | [] => none
  | (k', v) :: t => if k' = k then some v else get t k

/-- `Map.prototype.set`. -/
def set (m : List (String × β)) (k : String) (v : β) : List (String × β) :=
  match m with
  | [] => [(k, v)]
  | (k', v') :: t => if k' = k then (k, v) :: t else (k', v') :: set t k v

/-- `Map.prototype.delete`. -/
def del (m : List (String × β)) (k : String) : List (String × β) :=
  match m with
  | [] => []
  | (k', v') :: t => if k' = k then t else (k', v') :: del t k

/-- `map.keys().next().value`: the first (oldest) key. -/
def firstKey (m : List (String × β)) : Option String :=
  m.head?.map Prod.fst

end JsMap

/-! ## Preview cache (src/services/previewGenerator.js, `PreviewGenerator`)

`this.cache` is a JS `Map` from URL to `{ preview, timestamp }`;
`this.cacheTimeout = 5 * 60 * 1000`. The cached payload type is abstract
(`α`), as the cache never inspects it. -/

namespace PreviewGenerator

/-- One cache entry: `{ preview, timestamp }`. -/
structure CacheEntry (α : Type) where
  preview : α
  timestamp : Int
deriving DecidableEq

/-- The cache map. -/
abbrev Cache (α : Type) := List (String × CacheEntry α)

/-- `this.cacheTimeout = 5 * 60 * 1000`. -/
def cacheTimeout : Int := 5 * 60 * 1000

/-- `getCached(url)`, with `Date.now()` passed explicitly; returns the hit (if
any) and the updated map (expired entries are deleted on the way). -/
def getCached (c : Cache α) (url : String) (now : Int) : Option α × Cache α :=
  match JsMap.get c url with
  | none => (none, c)
  | some cached =>
    if now - cached.timestamp > cacheTimeout then
      (none, JsMap.del c url)
    else
      (some cached.preview, c)

/-- `setCached(url, preview)`, with `Date.now()` passed explicitly. -/
def setCached (c : Cache α) (url : String) (preview : α) (now : Int) : Cache α :=
  let c' :=
    if c.length > 50 then
      match JsMap.firstKey c with
      | some k => JsMap.del c k
      | none => c
    else c
  JsMap.set c' url ⟨preview, now⟩

end PreviewGenerator

/-! ## Text summarizer (src/services/contentProcessing/textSummarizer.js)

The regexes of the source are embedded as explicit scanners:
* `/\s+/g → ' '` whitespace normalisation;
* the abbreviation patterns built by `abbr.replace('.', '\\.')` — note that
  JS `String.replace` with a string pattern only replaces the FIRST dot, so
  for `e.g.` and `i.e.` the trailing dot stays a regex wildcard;
* the sentence splitter `/([.!?]+)\s+(?=[A-Z])/g` (deterministic
  maximal-munch: no backtracking is possible for this pattern);
* `/[^\w\s'-]/g → ''` word normalisation. -/

namespace textSummarizer

open JsPrim

/-- `text.replace(/\s+/g, ' ')`. -/
def wsNormalize (s : String) : String :=
  String.intercalate " " ((splitRuns isWs s.data).map (fun l => ⟨l⟩))

/-- The abbreviation list of `splitIntoSentences`. -/
def abbreviations : List String :=
  ["Dr.", "Mr.", "Mrs.", "Ms.", "Prof.", "Sr.", "Jr.", "etc.", "vs.",
   "e.g.", "i.e.", "Inc.", "Co.", "Corp.", "Ltd."]

/-- `'<<ABBR>>' + index`. -/
def placeholderFor (i : Nat) : String := "<<ABBR>>" ++ toString i

/-- JS regex wildcard `.`: any character except a line terminator. -/
def isRegexDot (c : Char) : Bool := ¬ (c = '\n' || c = '\r')

/-- Global replace of the two-part pattern `lit` followed by one wildcard
character (the shape of the botched `e\.g.` / `i\.e.` patterns); fuelled
structural recursion (the initial fuel always suffices). -/
def replaceLitDotF (lit rep : List Char) : Nat → List Char → List Char
  | 0, l => l
  | _ + 1, [] => []
  | fuel + 1, c :: t =>
    if lit.isPrefixOf (c :: t) ∧ ((c :: t).drop lit.length).head?.any isRegexDot then
      rep ++ replaceLitDotF lit rep fuel (t.drop lit.length)
    else
      c :: replaceLitDotF lit rep fuel t

/-- Global replace of `lit` + wildcard. -/
def replaceLitDot (l : List Char) (lit : List Char) (rep : List Char) : List Char :=
  replaceLitDotF lit rep (l.length + 1) l

/-- One forward abbreviation substitution: the patterns for `e.g.` and
`i.e.` end in a wildcard (see above); all other abbreviations contain a
single dot, so their patterns are literal. -/
def applyAbbr (text : String) (abbr : String) (i : Nat) : String :=
  if abbr = "e.g." then ⟨replaceLitDot text.data ("e.g".data) (placeholderFor i).data⟩
  else if abbr = "i.e." then ⟨replaceLitDot text.data ("i.e".data) (placeholderFor i).data⟩
  else jsReplaceAll text abbr (placeholderFor i)

/-- `[.!?]` -/
def isSentPunct (c : Char) : Bool := c = '.' || c = '!' || c = '?'

/-- `[A-Z]` -/
def isUpper (c : Char) : Bool := 'A' ≤ c && c ≤ 'Z'

/-- Whether `/([.!?]+)\s+(?=[A-Z])/` matches at the head of `l`,
returning the lengths of the punctuation run and the whitespace run. -/
def sentBreakAt (l : List Char) : Option (Nat × Nat) :=
  let p := (l.takeWhile isSentPunct).length
  if p = 0 then none
  else
    let w := ((l.drop p).takeWhile isWs).length
    if w = 0 then none
    else if (l.drop (p + w)).head?.any isUpper then some (p, w) else none

/-- Leftmost match position of the sentence-break pattern together with its
run lengths. -/
def findSentBreak : List Char → Option (Nat × Nat × Nat)
  | [] => none
  | c :: t =>
    match sentBreakAt (c :: t) with
    | some (p, w) => some (0, p, w)
    | none => (findSentBreak t).map (fun r => (r.1 + 1, r.2))

/-- `text.split(/([.!?]+)\s+(?=[A-Z])/g)`: the JS `split` result including
the captured punctuation groups; fuelled structural recursion (a match
always consumes at least two characters, so the initial fuel suffices). -/
def sentSplitPartsF : Nat → List Char → List String
  | 0, l => [⟨l⟩]
  | fuel + 1, l =>
    match findSentBreak l with
    | none => [⟨l⟩]
    | some (i, p, w) =>
      ⟨l.take i⟩ :: ⟨(l.drop i).take p⟩ :: sentSplitPartsF fuel (l.drop (i + p + w))

/-- `text.split(/([.!?]+)\s+(?=[A-Z])/g)`. -/
def sentSplitParts (l : List Char) : List String :=
  sentSplitPartsF (l.length + 1) l

/-- The `for (let i = 0; i < parts.length; i += 2)` reconstruction loop. -/
def reconstruct : List String → List String
  | [] => []
  | [x] => if x ≠ "" ∧ jsTrim x ≠ "" then [jsTrim x] else []
  | x :: sep :: rest =>
    (if x ≠ "" ∧ jsTrim x ≠ "" then [jsTrim (x ++ sep)] else []) ++ reconstruct rest

/-- `splitIntoSentences(text)`. -/
def splitIntoSentences (text : String) : List String :=
  if text = "" then []
  else
    let text := jsTrim (wsNormalize text)
    let text := (abbreviations.enum.foldl (fun t ai => applyAbbr t ai.2 ai.1) text)
    let parts := sentSplitParts text.data
    let sentences := reconstruct parts
    let restored := sentences.map (fun s =>
      abbreviations.enum.foldl (fun t ai => jsReplaceAll t (placeholderFor ai.1) ai.2) s)
    restored.filter (fun s => s.length > 10 ∧ (jsSplitWs s).length > 3)

/-- The stop-word set of `isStopWord`. -/
def stopWords : List String :=
  ["a", "an", "and", "are", "as", "at", "be", "been", "but", "by",
   "for", "from", "has", "have", "he", "her", "here", "hers", "him",
   "his", "how", "i", "if", "in", "is", "it", "its", "me", "my",
   "of", "on", "or", "our", "ours", "she", "so", "than", "that",
   "the", "their", "them", "then", "there", "these", "they", "this",
   "those", "to", "too", "us", "was", "we", "were", "what", "when",
   "where", "which", "who", "whom", "why", "will", "with", "would",
   "you", "your", "yours", "about", "after", "all", "also", "am",
   "another", "any", "because", "before", "being", "between", "both",
   "can", "could", "did", "do", "does", "doing", "during", "each",
   "either", "few", "further", "had", "having", "into", "just",
   "may", "might", "more", "most", "much", "must", "no", "nor",
   "not", "now", "off", "once", "only", "other", "over", "own",
   "said", "same", "should", "since", "some", "such", "than",
   "through", "under", "until", "up", "very", "while", "shall",
   "get", "got", "like", "made", "make", "many", "one", "two",
   "three", "well", "way", "even", "new", "see", "come", "came"]

/-- `isStopWord(word)`. -/
def isStopWord (word : String) : Bool :=
  word = "" || stopWords.contains (jsToLower word)

/-- Keep-set of the `/[^\w\s'-]/g` deletion (word chars, whitespace,
apostrophe, hyphen). -/
def isFreqKeep (c : Char) : Bool :=
  isWordChar c || isWs c || c = Char.ofNat 39 || c = '-'

/-- `text.toLowerCase().replace(/[^\w\s'-]/g, '').split(/\s+/)` filtered to
nonempty words. -/
def normalizedWords (text : String) : List String :=
  (jsSplitWs ⟨(jsToLower text).data.filter isFreqKeep⟩).filter (fun w => w ≠ "")

/-- `calculateWordFrequency(text)`: word → frequency normalised by the
maximum frequency (exact rationals in place of JS doubles). -/
def calculateWordFrequency (text : String) : List (String × ℚ) :=
  if text = "" then []
  else
    let counts : List (String × Nat) :=
      (normalizedWords text).foldl (fun m word =>
        if isStopWord word || word.length < 3 then m
        else JsMap.set m word ((JsMap.get m word).getD 0 + 1)) []
    let maxFreq : Nat := max (counts.foldr (fun kv a => max kv.2 a) 0) 1
    counts.map (fun kv => (kv.1, (kv.2 : ℚ) / (maxFreq : ℚ)))

/-- The key-phrase list of `scoreSentence`. -/
def keyPhrases : List String :=
  ["importantly", "in conclusion", "to summarize", "in summary",
   "key", "significant", "primary", "essential", "critical",
   "main point", "in other words", "the result", "therefore",
   "consequently", "as a result"]

/-- `scoreSentence(sentence, wordFrequency, index, totalSentences)`. -/
def scoreSentence (sentence : String) (wordFrequency : List (String × ℚ))
    (index : Nat) (totalSentences : Nat) : ℚ :=
  if sentence = "" then 0
  else
    let words := normalizedWords sentence
    if words.length < 3 then 0
    else
      let base : ℚ × Nat := words.foldl (fun acc word =>
        if ¬ isStopWord word ∧ word.length ≥ 3 then
          (acc.1 + ((JsMap.get wordFrequency word).getD 0), acc.2 + 1)
        else acc) (0, 0)
      if base.2 = 0 then 0
      else
        let score := base.1 / (base.2 : ℚ)
        let score :=
          if index = 0 then score * (3 / 2)
          else if (index : ℚ) < (totalSentences : ℚ) * (1 / 5) then score * (13 / 10)
          else if index = totalSentences - 1 ∧ totalSentences ≠ 0 then score * (6 / 5)
          else score
        let sentenceLower := jsToLower sentence
        let score := keyPhrases.foldl (fun sc phrase =>
          if jsIncludes sentenceLower phrase then sc * (13 / 10) else sc) score
        let score := if jsIncludes sentence "?" then score * (4 / 5) else score
        let score := if words.length > 40 then score * (9 / 10) else score
        score

/-- The break-selection half of `truncateToFit`, applied to the already
truncated prefix. -/
def truncateCore (truncated : String) (maxChars : Nat) : String :=
  let bestBreak : Int := [". ", "! ", "? "].foldl (fun best ending =>
    match jsLastIndexOf truncated ending with
    | some pos => if 2 * (pos : Int) > (maxChars : Int) ∧ (pos : Int) > best then pos else best
    | none => best) (-1)
  if bestBreak > 0 then
    jsSubstr truncated (bestBreak.toNat + 1)
  else
    match jsLastIndexOf truncated " " with
    | some lastSpace =>
      if 2 * (lastSpace : Int) > (maxChars : Int) then
        jsSubstr truncated lastSpace ++ "..."
      else truncated ++ "..."
    | none => truncated ++ "..."

/-- `truncateToFit(text, maxChars)`. -/
def truncateToFit (text : String) (maxChars : Nat) : String :=
  if text = "" then ""
  else if text.length ≤ maxChars then text
  else truncateCore (jsSubstr text maxChars) maxChars

/-- A scored sentence of `summarize`. -/
structure Scored where
  sentence : String
  score : ℚ
  index : Nat

/-- The sentence selection of `summarize`: the top `maxSentences` sentences
by score, re-sorted into narrative order and joined. -/
def selectedSummary (text : String) (sentences : List String)
    (maxSentences : Nat) : String :=
  let wordFrequency := calculateWordFrequency text
  let scoredSentences := sentences.enum.map (fun si =>
    Scored.mk si.2 (scoreSentence si.2 wordFrequency si.1 sentences.length) si.1)
  let sorted := JsPrim.jsSortBy (fun a b => b.score ≤ a.score) scoredSentences
  let top := sorted.take (min maxSentences sentences.length)
  let top := JsPrim.jsSortBy (fun a b => a.index ≤ b.index) top
  joinSp (top.map (fun sc => sc.sentence))

/-- `summarize(text, maxSentences = 3, maxChars = 280)`. -/
def summarize (text : String) (maxSentences : Nat := 3) (maxChars : Nat := 280) : String :=
  if text = "" then ""
  else
    let sentences := splitIntoSentences text
    if sentences.length = 0 then truncateToFit text maxChars
    else if sentences.length ≤ 2 then sentences.headD ""
    else
      let summary := selectedSummary text sentences maxSentences
      if summary.length > maxChars then truncateToFit summary maxChars
      else summary

end textSummarizer

/-! ## DOM model

A pure tree standing for the parsed document. Element identity (JS `!==`)
is decided by the element's path from the root. `Loc` is an element together
with the context the DOM API exposes: its ancestors (nearest first, each with
its own path) and its next element sibling. -/

/-- A DOM node: an element (with tag, attributes, children) or a text node.
Tags and attribute names are stored lowercased, as the HTML parser yields
them. -/
inductive Dom where
  | elem (tag : String) (attrs : List (String × String)) (children : List Dom) : Dom
  | text (s : String) : Dom

namespace Dom

mutual

/-- `Node.prototype.textContent`. -/
def textContent : Dom → String
  | .text s => s
  | .elem _ _ cs => textContentList cs

/-- Concatenated text of a node list. -/
def textContentList : List Dom → String
  | [] => ""
  | c :: t => textContent c ++ textContentList t

end

mutual

/-- Number of nodes of a subtree (used as recursion fuel). -/
def size : Dom → Nat
  | .text _ => 1
  | .elem _ _ cs => 1 + sizeList cs

/-- Total node count of a node list. -/
def sizeList : List Dom → Nat
  | [] => 0
  | c :: t => size c + sizeList t

end

/-- `Element.prototype.getAttribute` (first binding wins, `null ↦ none`). -/
def getAttr : Dom → String → Option String
  | .text _, _ => none
  | .elem _ attrs _, name =>
    match attrs.find? (fun a => a.1 = name) with
    | some a => some a.2
    | none => none

/-- `Element.prototype.hasAttribute`. -/
def hasAttr (d : Dom) (name : String) : Bool :=
  (d.getAttr name).isSome

/-- `Element.prototype.className` (empty string when absent). -/
def className (d : Dom) : String := (d.getAttr "class").getD ""

/-- `Element.prototype.id`. -/
def domId (d : Dom) : String := (d.getAttr "id").getD ""

/-- Lowercased tag ("" for text nodes). -/
def tag : Dom → String
  | .elem t _ _ => t
  | .text _ => ""

/-- `Element.prototype.tagName` (uppercased). -/
def tagName (d : Dom) : String := JsPrim.jsToUpper d.tag

/-- Whether the node is an element. -/
def isElem : Dom → Bool
  | .elem .. => true
  | .text _ => false

end Dom

/-- An element in context: its path from the root (element identity), the
node itself, the ancestor chain (nearest first, with paths), and the next
element sibling. -/
structure Loc where
  path : List Nat
  node : Dom
  anc : List (List Nat × Dom)
  next : Option Dom

/-! ### CSS selectors

The source queries with a fixed set of selector strings; they are embedded
as values of a small AST covering exactly the features used: compound
selectors of tag/class/id/attribute tests, the descendant combinator, and
comma lists. Each selector value below is annotated with the source string
it stands for. -/

/-- One attribute test: `[a]`, `[a="v"]` or `[a*="v"]`. -/
inductive AttrTest where
  | exist (name : String)
  | eq (name val : String)
  | containsVal (name val : String)

/-- A compound selector: conjunction of simple tests. -/
structure Compound where
  tagIs : Option String := none
  classes : List String := []
  ids : List String := []
  attrs : List AttrTest := []

/-- A selector chain `A B C`: `parts` lists the compounds left to right; the
last one is the subject, the others must match ancestors in order. -/
structure Chain where
  parts : List Compound

/-- A selector group `A, B` (comma list). -/
def Sel := List Chain

namespace Match

open JsPrim

/-- Class-attribute membership: the `class` attribute split on whitespace
contains `c`. -/
def hasClass (d : Dom) (c : String) : Bool :=
  ((jsSplitWs (Dom.className d)).filter (fun s => s ≠ "")).contains c

/-- One attribute test against an element. -/
def attrTest (d : Dom) : AttrTest → Bool
  | .exist n => d.hasAttr n
  | .eq n v => (d.getAttr n) = some v
  | .containsVal n v =>
    match d.getAttr n with
    | some w => jsIncludes w v
    | none => false

/-- Compound selector against an element. -/
def compound (d : Dom) (c : Compound) : Bool :=
  (match c.tagIs with | some t => d.tag = t | none => true) &&
  c.classes.all (fun cl => hasClass d cl) &&
  c.ids.all (fun i => Dom.domId d = i) &&
  c.attrs.all (fun a => attrTest d a)

/-- Match the (reversed) ancestor compounds against the ancestor chain:
each compound must match some strictly higher ancestor, in order. -/
def ancestorsMatch : List Compound → List Dom → Bool
  | [], _ => true
  | _ :: _, [] => false
  | c :: cs, a :: as' =>
    (compound a c && ancestorsMatch cs as') || ancestorsMatch (c :: cs) as'

/-- A chain against an element in context. -/
def chain (le : Loc) (ch : Chain) : Bool :=
  match ch.parts.reverse with
  | [] => false
  | subject :: above => compound le.node subject &&
      ancestorsMatch above (le.anc.map Prod.snd)

/-- A selector group against an element in context. -/
def sel (le : Loc) (s : Sel) : Bool :=
  s.any (fun ch => chain le ch)

end Match

namespace Dom

/-- Pre-order collection of all elements of a subtree, with context.
`collect d path anc next` lists `d` itself (if an element) followed by its
descendants in document order. -/
def collect (d : Dom) (path : List Nat) (anc : List (List Nat × Dom))
    (next : Option Dom) : List Loc :=
  match d with
  | .text _ => []
  | .elem t a cs =>
    let here : Loc := ⟨path, .elem t a cs, anc, next⟩
    let anc' := (path, Dom.elem t a cs) :: anc
    here :: collectKids cs 0 path anc'
where
  /-- Collect over a child list, tracking indices and next element siblings. -/
  collectKids : List Dom → Nat → List Nat → List (List Nat × Dom) → List Loc
  | [], _, _, _ => []
  | c :: rest, i, ppath, anc =>
    collect c (ppath ++ [i]) anc (rest.find? Dom.isElem) ++
      collectKids rest (i + 1) ppath anc

/-- All elements of the document (the root element included), in document
order, with context. -/
def docElems (root : Dom) : List Loc := collect root [] [] none

/-- `document.querySelectorAll(sel)` (document order). -/
def qsa (root : Dom) (s : Sel) : List Loc :=
  (docElems root).filter (fun le => Match.sel le s)

/-- `document.querySelector(sel)`. -/
def qs (root : Dom) (s : Sel) : Option Loc := (qsa root s).head?

/-- The strict descendants of an element in context, in document order. -/
def locDescendants (le : Loc) : List Loc :=
  (collect le.node le.path le.anc le.next).drop 1

/-- `element.querySelectorAll(sel)` (descendants only, document order). -/
def eQsa (le : Loc) (s : Sel) : List Loc :=
  (locDescendants le).filter (fun d => Match.sel d s)

/-- `element.querySelector(sel)`. -/
def eQs (le : Loc) (s : Sel) : Option Loc := (eQsa le s).head?

/-- `element.closest(sel)` for a compound selector: nearest ancestor-or-self
matching, returned as (path, node) — the path decides JS object identity. -/
def closest (le : Loc) (c : Compound) : Option (List Nat × Dom) :=
  if Match.compound le.node c then some (le.path, le.node)
  else le.anc.find? (fun a => Match.compound a.2 c)

/-- `element.parentElement` (as (path, node)). -/
def parentElem (le : Loc) : Option (List Nat × Dom) := le.anc.head?

end Dom

/-! ## JSON values and `JSON.parse`

A strict ECMA-404 parser: JSON whitespace only, no raw control characters
inside string literals, no invalid escapes, no leading zeros. Numbers keep
their source literal (no claim below computes with JSON numbers). Escaped
lone UTF-16 surrogates — accepted by JS but not representable as Lean
`Char` — are rejected; no input in this development contains them. -/

inductive Json where
  | null : Json
  | bool (b : Bool) : Json
  | num (lit : String) : Json
  | str (s : String) : Json
  | arr (elems : List Json) : Json
  | obj (fields : List (String × Json)) : Json

namespace Json

/-- JSON whitespace (ECMA-404): space, tab, LF, CR. -/
def isJsonWs (c : Char) : Bool :=
  c = ' ' || c = '\t' || c = '\n' || c = '\r'

/-- Skip JSON whitespace. -/
def skipWs (l : List Char) : List Char := l.dropWhile isJsonWs

/-- Hexadecimal digit value. -/
def hexVal (c : Char) : Option Nat :=
  if '0' ≤ c ∧ c ≤ '9' then some (c.toNat - '0'.toNat)
  else if 'a' ≤ c ∧ c ≤ 'f' then some (c.toNat - 'a'.toNat + 10)
  else if 'A' ≤ c ∧ c ≤ 'F' then some (c.toNat - 'A'.toNat + 10)
  else none

/-- Four hex digits. -/
def hex4 : List Char → Option (Nat × List Char)
  | a :: b :: c :: d :: rest => do
    let va ← hexVal a
    let vb ← hexVal b
    let vc ← hexVal c
    let vd ← hexVal d
    pure (((va * 16 + vb) * 16 + vc) * 16 + vd, rest)
  | _ => none

/-- Parse the body of a string literal (the opening quote already
consumed), strict: raw chars below U+0020 are rejected. -/
def parseStrAux (fuel : Nat) (l : List Char) (acc : List Char) :
    Option (String × List Char) :=
  match fuel with
  | 0 => none
  | fuel + 1 =>
    match l with
    | [] => none
    | '"' :: rest => some (⟨acc.reverse⟩, rest)
    | '\\' :: e :: rest =>
      match e with
      | '"' => parseStrAux fuel rest ('"' :: acc)
      | '\\' => parseStrAux fuel rest ('\\' :: acc)
      | '/' => parseStrAux fuel rest ('/' :: acc)
      | 'b' => parseStrAux fuel rest (Char.ofNat 8 :: acc)
      | 'f' => parseStrAux fuel rest (Char.ofNat 12 :: acc)
      | 'n' => parseStrAux fuel rest ('\n' :: acc)
      | 'r' => parseStrAux fuel rest ('\r' :: acc)
      | 't' => parseStrAux fuel rest ('\t' :: acc)
      | 'u' =>
        match hex4 rest with
        | none => none
        | some (v, rest') =>
          if 0xD800 ≤ v ∧ v ≤ 0xDBFF then
            match rest' with
            | '\\' :: 'u' :: rest'' =>
              match hex4 rest'' with
              | some (w, rest3) =>
                if 0xDC00 ≤ w ∧ w ≤ 0xDFFF then
                  parseStrAux fuel rest3
                    (Char.ofNat (0x10000 + (v - 0xD800) * 0x400 + (w - 0xDC00)) :: acc)
                else none
              | none => none
            | _ => none
          else if 0xDC00 ≤ v ∧ v ≤ 0xDFFF then none
          else parseStrAux fuel rest' (Char.ofNat v :: acc)
      | _ => none
    | c :: rest =>
      if c.toNat < 0x20 then none
      else parseStrAux fuel rest (c :: acc)

/-- Parse a number literal (strict JSON grammar), returning it verbatim. -/
def parseNum (l : List Char) : Option (String × List Char) :=
  let (sign, l1) := match l with
    | '-' :: t => (['-'], t)
    | _ => (([] : List Char), l)
  let intPart : Option (List Char × List Char) :=
    match l1 with
    | '0' :: t => some (['0'], t)
    | c :: _ =>
      if '1' ≤ c ∧ c ≤ '9' then
        some (l1.takeWhile JsPrim.isDigit, l1.dropWhile JsPrim.isDigit)
      else none
    | [] => none
  match intPart with
  | none => none
  | some (ip, l2) =>
    let fracPart : Option (List Char × List Char) :=
      match l2 with
      | '.' :: t =>
        let ds := t.takeWhile JsPrim.isDigit
        if ds = [] then none else some ('.' :: ds, t.dropWhile JsPrim.isDigit)
      | _ => some ([], l2)
    match fracPart with
    | none => none
    | some (fp, l3) =>
      let expPart : Option (List Char × List Char) :=
        match l3 with
        | c :: t =>
          if c = 'e' ∨ c = 'E' then
            let (sg, t1) := match t with
              | '+' :: u => (['+'], u)
              | '-' :: u => (['-'], u)
              | _ => (([] : List Char), t)
            let ds := t1.takeWhile JsPrim.isDigit
            if ds = [] then none else some (c :: (sg ++ ds), t1.dropWhile JsPrim.isDigit)
          else some ([], l3)
        | [] => some ([], l3)
      match expPart with
      | none => none
      | some (ep, l4) => some (⟨sign ++ ip ++ fp ++ ep⟩, l4)

mutual

/-- Parse one JSON value (leading whitespace allowed). -/
def parseValue (fuel : Nat) (l : List Char) : Option (Json × List Char) :=
  match fuel with
  | 0 => none
  | fuel + 1 =>
    let l := skipWs l
    match l with
    | '{' :: t => parseObjBody fuel t
    | '[' :: t => parseArrBody fuel t
    | '"' :: t => (parseStrAux (t.length + 1) t []).map (fun r => (Json.str r.1, r.2))
    | 't' :: 'r' :: 'u' :: 'e' :: t => some (Json.bool true, t)
    | 'f' :: 'a' :: 'l' :: 's' :: 'e' :: t => some (Json.bool false, t)
    | 'n' :: 'u' :: 'l' :: 'l' :: t => some (Json.null, t)
    | _ => (parseNum l).map (fun r => (Json.num r.1, r.2))

/-- Parse an object body after `{`. -/
def parseObjBody (fuel : Nat) (l : List Char) : Option (Json × List Char) :=
  match fuel with
  | 0 => none
  | fuel + 1 =>
    let l := skipWs l
    match l with
    | '}' :: t => some (Json.obj [], t)
    | _ => parseMembers fuel l []

/-- Parse object members (at least one expected). -/
def parseMembers (fuel : Nat) (l : List Char) (acc : List (String × Json)) :
    Option (Json × List Char) :=
  match fuel with
  | 0 => none
  | fuel + 1 =>
    match skipWs l with
    | '"' :: t =>
      match parseStrAux (t.length + 1) t [] with
      | none => none
      | some (key, rest) =>
        match skipWs rest with
        | ':' :: rest' =>
          match parseValue fuel rest' with
          | none => none
          | some (v, rest'') =>
            let acc' := JsMap.set acc key v
            match skipWs rest'' with
            | ',' :: rest3 => parseMembers fuel rest3 acc'
            | '}' :: rest3 => some (Json.obj acc', rest3)
            | _ => none
        | _ => none
    | _ => none

/-- Parse an array body after `[`. -/
def parseArrBody (fuel : Nat) (l : List Char) : Option (Json × List Char) :=
  match fuel with
  | 0 => none
  | fuel + 1 =>
    match skipWs l with
    | ']' :: t => some (Json.arr [], t)
    | l' => parseElems fuel l' []

/-- Parse array elements (at least one expected). -/
def parseElems (fuel : Nat) (l : List Char) (acc : List Json) :
    Option (Json × List Char) :=
  match fuel with
  | 0 => none
  | fuel + 1 =>
    match parseValue fuel l with
    | none => none
    | some (v, rest) =>
      match skipWs rest with
      | ',' :: rest' => parseElems fuel rest' (acc ++ [v])
      | ']' :: rest' => some (Json.arr (acc ++ [v]), rest')
      | _ => none

end

/-- `JSON.parse` (as a partial function: `none` models the thrown
`SyntaxError`). -/
def jsonParse (s : String) : Option Json :=
  match parseValue (s.length + 1) s.data with
  | some (v, rest) => if skipWs rest = [] then some v else none
  | none => none

/-- Truthiness of a JSON value seen as a JS value. -/
def jsTruthy : Json → Bool
  | .null => false
  | .bool b => b
  | .str s => s ≠ ""
  | .num lit =>
    -- zero iff the mantissa digits are all 0
    let mantissa := lit.data.takeWhile (fun c => ¬ (c = 'e' ∨ c = 'E'))
    ¬ (mantissa.filter JsPrim.isDigit).all (fun c => c = '0')
  | .arr _ => true
  | .obj _ => true

/-- Property access `j[k]` (`undefined ↦ none`). -/
def jget : Json → String → Option Json
  | .obj fields, k => JsMap.get fields k
  | _, _ => none

/-- Optional-chained access `j?.k` over an optional value. -/
def jgetOpt (j : Option Json) (k : String) : Option Json :=
  match j with
  | some v => jget v k
  | none => none

/-- Strict equality with a string literal (`j === "s"`). -/
def strictEqStr : Json → String → Bool
  | .str v, s => v = s
  | _, _ => false

/-- `Array.isArray`. -/
def isArray : Json → Bool
  | .arr _ => true
  | _ => false

end Json

/-! ### Selector shorthands

Builders translating the CSS selector strings of the sources. -/

namespace SelBuild

/-- `tag` -/
def tagC (t : String) : Compound := { tagIs := some t }

/-- `.class` -/
def clsC (c : String) : Compound := { classes := [c] }

/-- `#id` -/
def idC (i : String) : Compound := { ids := [i] }

/-- `[a]` -/
def attrC (a : String) : Compound := { attrs := [AttrTest.exist a] }

/-- `[a="v"]` -/
def attrEqC (a v : String) : Compound := { attrs := [AttrTest.eq a v] }

/-- `tag[a="v"]` -/
def tagAttrEqC (t a v : String) : Compound :=
  { tagIs := some t, attrs := [AttrTest.eq a v] }

/-- `tag[a]` -/
def tagAttrC (t a : String) : Compound :=
  { tagIs := some t, attrs := [AttrTest.exist a] }

/-- `tag[a*="v"]` -/
def tagAttrContC (t a v : String) : Compound :=
  { tagIs := some t, attrs := [AttrTest.containsVal a v] }

/-- A one-compound selector. -/
def one (c : Compound) : Sel := [⟨[c]⟩]

/-- A descendant chain `a b`. -/
def desc (a b : Compound) : Sel := [⟨[a, b]⟩]

/-- A comma list of one-compound selectors. -/
def group (cs : List Compound) : Sel := cs.map (fun c => ⟨[c]⟩)

end SelBuild

/-! ## Content-type classifier (src/utils/contentTypeDetector.js)

`detect(dom, url)` with the URL-substring phases and the DOM/schema
phases; the `dom` argument is `Option Dom` (`none` models a null/undefined
document) and the empty string models a falsy `url`. -/

namespace contentTypeDetector

open JsPrim SelBuild Dom

/-- The `videoSites` list of `isVideoSite` — note the bare token `'video'`. -/
def videoSites : List String :=
  ["youtube.com", "youtu.be", "vimeo.com", "dailymotion.com", "twitch.tv",
   "ted.com", "netflix.com", "hulu.com", "disneyplus.com", "hbomax.com",
   "primevideo.com", "video"]

/-- `isVideoSite(url)`: substring test over the whole lowercased URL. -/
def isVideoSite (url : String) : Bool :=
  videoSites.any (fun site => jsIncludes (jsToLower url) site)

/-- The `socialSites` list of `isSocialSite` — note the bare `'mastodon'`. -/
def socialSites : List String :=
  ["twitter.com", "x.com", "facebook.com", "instagram.com", "linkedin.com",
   "pinterest.com", "reddit.com", "tumblr.com", "threads.net", "tiktok.com",
   "snapchat.com", "mastodon"]

/-- `isSocialSite(url)`. -/
def isSocialSite (url : String) : Bool :=
  socialSites.any (fun site => jsIncludes (jsToLower url) site)

/-- The `ecommerceSites` list of `isEcommerceSite`. -/
def ecommerceSites : List String :=
  ["amazon.com", "ebay.com", "walmart.com", "etsy.com", "shopify.com",
   "bestbuy.com", "target.com", "aliexpress.com", "newegg.com", "wayfair.com"]

/-- `isEcommerceSite(url)`: domain substrings or product-path markers. -/
def isEcommerceSite (url : String) : Bool :=
  ecommerceSites.any (fun site => jsIncludes (jsToLower url) site) ||
  jsIncludes (jsToLower url) "/product/" ||
  jsIncludes (jsToLower url) "/products/" ||
  jsIncludes (jsToLower url) "/shop/" ||
  jsIncludes (jsToLower url) "/item/"

/-- `script[type="application/ld+json"]` -/
def jsonLdSel : Sel := one (tagAttrEqC "script" "type" "application/ld+json")

/-- `hasArticleSchema(dom)`: raw `JSON.parse` over each JSON-LD block (no
sanitisation here), stopping after more than five parse errors. -/
def hasArticleSchema (root : Dom) : Bool :=
  let schemas := qsa root jsonLdSel
  let step := fun (st : Bool × Nat × Bool) (schema : Loc) =>
    -- state: (found, errorCount, stopped)
    if st.1 ∨ st.2.2 then st
    else
      match Json.jsonParse (Dom.textContent schema.node) with
      | some data =>
        let tpe := Json.jget data "@type"
        let isArt := (tpe.any (fun t => Json.strictEqStr t "Article" ||
          Json.strictEqStr t "NewsArticle" || Json.strictEqStr t "BlogPosting" ||
          Json.strictEqStr t "ScholarlyArticle" || Json.strictEqStr t "TechArticle"))
        if isArt then (true, st.2)
        else
          match data with
          | .arr items =>
            if items.any (fun item => (Json.jget item "@type").any (fun t =>
                Json.strictEqStr t "Article" || Json.strictEqStr t "NewsArticle" ||
                Json.strictEqStr t "BlogPosting")) then
              (true, st.2)
            else st
          | _ => st
      | none =>
        let ec := st.2.1 + 1
        (false, ec, ec > 5)
  (schemas.foldl step (false, 0, false)).1

/-- `hasProductSchema(dom)`. -/
def hasProductSchema (root : Dom) : Bool :=
  let schemas := qsa root jsonLdSel
  let step := fun (st : Bool × Nat × Bool) (schema : Loc) =>
    if st.1 ∨ st.2.2 then st
    else
      match Json.jsonParse (Dom.textContent schema.node) with
      | some data =>
        let tpe := Json.jget data "@type"
        let isProd := (tpe.any (fun t => Json.strictEqStr t "Product" ||
          Json.strictEqStr t "Offer" || Json.strictEqStr t "ProductModel"))
        if isProd then (true, st.2)
        else
          match data with
          | .arr items =>
            if items.any (fun item => (Json.jget item "@type").any (fun t =>
                Json.strictEqStr t "Product" || Json.strictEqStr t "Offer")) then
              (true, st.2)
            else st
          | _ => st
      | none =>
        let ec := st.2.1 + 1
        (false, ec, ec > 5)
  (schemas.foldl step (false, 0, false)).1

/-- The `articleSelectors` list of `hasArticleStructure`. -/
def articleSelectors : List Sel :=
  [one (clsC "article"),                     -- '.article'
   one (clsC "post"),                        -- '.post'
   one (clsC "blog-post"),                   -- '.blog-post'
   one (clsC "news-article"),                -- '.news-article'
   one (clsC "story"),                       -- '.story'
   one (clsC "entry-content"),               -- '.entry-content'
   desc (tagC "main") (tagC "article"),      -- 'main article'
   desc (idC "content") (tagC "article"),    -- '#content article'
   one (attrEqC "role" "article")]           -- '[role="article"]'

/-- `hasArticleStructure(dom)`. -/
def hasArticleStructure (root : Dom) : Bool :=
  if (qs root (one (tagC "article"))).isSome then true
  else if articleSelectors.any (fun s => (qs root s).isSome) then true
  else
    let hasAuthor := (qs root (one (attrEqC "rel" "author"))).isSome ||
      (qs root (one (clsC "author"))).isSome ||
      (qs root (one (attrEqC "itemprop" "author"))).isSome
    let hasDate := (qs root (one (attrEqC "property" "datePublished"))).isSome ||
      (qs root (one (clsC "date"))).isSome ||
      (qs root (one (tagC "time"))).isSome ||
      (qs root (one (attrEqC "itemprop" "datePublished"))).isSome
    hasAuthor && hasDate

/-- The `productSelectors` list of `hasProductStructure`. -/
def productSelectors : List Sel :=
  [one (clsC "product"),                 -- '.product'
   one (clsC "product-details"),         -- '.product-details'
   one (clsC "product-info"),            -- '.product-info'
   one (clsC "product-description"),     -- '.product-description'
   one (clsC "product-price"),           -- '.product-price'
   one (clsC "add-to-cart"),             -- '.add-to-cart'
   one (clsC "buy-now"),                 -- '.buy-now'
   one (attrEqC "itemprop" "price"),     -- '[itemprop="price"]'
   one (attrEqC "itemprop" "offers"),    -- '[itemprop="offers"]'
   one (clsC "price"),                   -- '.price'
   one (clsC "cart"),                    -- '.cart'
   one (idC "add-to-cart")]              -- '#add-to-cart'

/-- `hasProductStructure(dom)`: at least three of the selectors match. -/
def hasProductStructure (root : Dom) : Bool :=
  (productSelectors.countP (fun s => (qs root s).isSome)) ≥ 3

/-- The `gallerySelectors` list of `hasGalleryStructure`. -/
def gallerySelectors : List Sel :=
  [one (clsC "gallery"),                 -- '.gallery'
   one (clsC "slideshow"),               -- '.slideshow'
   one (clsC "carousel"),                -- '.carousel'
   one (clsC "images"),                  -- '.images'
   one (clsC "photos"),                  -- '.photos'
   one (attrC "data-gallery"),           -- '[data-gallery]'
   one (clsC "image-gallery"),           -- '.image-gallery'
   one (clsC "photo-gallery")]           -- '.photo-gallery'

/-- `hasGalleryStructure(dom)`. -/
def hasGalleryStructure (root : Dom) : Bool :=
  if gallerySelectors.any (fun s => (qs root s).isSome) then true
  else
    let images := qsa root (one (tagC "img"))
    if images.length > 5 then
      let significantImages := images.filter (fun img =>
        let width := (jsParseInt ((Dom.getAttr img.node "width").getD "0")).getD 0
        let height := (jsParseInt ((Dom.getAttr img.node "height").getD "0")).getD 0
        let src := (Dom.getAttr img.node "src").getD ""
        if jsIncludes src "tracking" || jsIncludes src "pixel" ||
            jsIncludes src "icon" then false
        else (width > 100 && height > 100) || (width = 0 && height = 0))
      significantImages.length > 4
    else false

/-- The `videoSelectors` list of `hasVideoStructure`. -/
def videoSelectors : List Sel :=
  [one (clsC "video"),                   -- '.video'
   one (clsC "video-player"),            -- '.video-player'
   one (clsC "video-container"),         -- '.video-container'
   one (clsC "player"),                  -- '.player'
   one (attrC "data-video"),             -- '[data-video]'
   one (clsC "video-embed"),             -- '.video-embed'
   one (idC "video-player")]             -- '#video-player'

/-- `hasVideoStructure(dom)`. -/
def hasVideoStructure (root : Dom) : Bool :=
  if (qs root (one (tagC "video"))).isSome ||
      (qs root (one (tagAttrContC "iframe" "src" "youtube"))).isSome ||
      (qs root (one (tagAttrContC "iframe" "src" "vimeo"))).isSome ||
      (qs root (one (tagAttrContC "iframe" "src" "dailymotion"))).isSome then
    true
  else videoSelectors.any (fun s => (qs root s).isSome)

/-- `'p, article, .content, #content, main'` -/
def contentBlocksSel : Sel :=
  group [tagC "p", tagC "article", clsC "content", idC "content", tagC "main"]

/-- `hasSubstantialText(dom)`: early-exit scan over at most 50 blocks.
The loop is embedded as a fold over the first 50 blocks tracking
(accumulated length, already-exceeded). -/
def hasSubstantialText (root : Dom) : Bool :=
  let contentBlocks := qsa root contentBlocksSel
  let maxBlocks := 50
  let targetLength := 1000
  let blocksToCheck := min contentBlocks.length maxBlocks
  let final := (contentBlocks.take blocksToCheck).foldl
    (fun (st : Nat × Bool) block =>
      if st.2 then st
      else
        let st' := st.1 + (jsTrim (Dom.textContent block.node)).length
        (st', st' > targetLength))
    (0, false)
  final.2 || final.1 > targetLength

/-- The DOM/schema phase of `detect` (steps 4–9): everything after the three
URL checks, a function of the document alone. -/
def domDetect (root : Dom) : String :=
  if hasArticleSchema root || hasArticleStructure root then "article"
  else if hasProductSchema root || hasProductStructure root then "product"
  else if hasGalleryStructure root then "gallery"
  else if hasVideoStructure root then "video"
  else if hasSubstantialText root then "article"
  else "default"

/-- `detect(dom, url)`. -/
def detect (dom : Option Dom) (url : String) : String :=
  match dom with
  | none => "default"
  | some root =>
    if url = "" then "default"
    else if isVideoSite url then "video"
    else if isSocialSite url then "social"
    else if isEcommerceSite url then "product"
    else domDetect root

end contentTypeDetector

/-! ## `new URL(...)` model

A simplified WHATWG URL parser covering the `scheme://host/path?search#hash`
shapes the sources rely on; parse failure (`none`) models the thrown
`TypeError`. Scheme and host are lowercased; `search` keeps its leading `?`. -/

structure UrlParts where
  scheme : String
  host : String
  pathname : String
  search : String
  hash : String
deriving DecidableEq

namespace UrlParts

open JsPrim

/-- Allowed scheme characters after the first letter. -/
def isSchemeChar (c : Char) : Bool :=
  ('a' ≤ c && c ≤ 'z') || ('A' ≤ c && c ≤ 'Z') || JsPrim.isDigit c ||
  c = '+' || c = '-' || c = '.'

/-- Parse an absolute URL. -/
def jsURL (url : String) : Option UrlParts :=
  match jsIndexOf url "://" with
  | none => none
  | some i =>
    let scheme := jsSubstr url i
    if scheme = "" ∨ ¬ (scheme.data.all isSchemeChar) ∨
        ¬ (scheme.data.head?.any (fun c => ('a' ≤ c && c ≤ 'z') || ('A' ≤ c && c ≤ 'Z'))) then
      none
    else
      let rest : List Char := url.data.drop (i + 3)
      let host := rest.takeWhile (fun c => ¬ (c = '/' ∨ c = '?' ∨ c = '#'))
      if host = [] then none
      else
        let after := rest.drop host.length
        let path := after.takeWhile (fun c => ¬ (c = '?' ∨ c = '#'))
        let after2 := after.drop path.length
        let search := after2.takeWhile (fun c => ¬ (c = '#'))
        let frag := after2.drop search.length
        some { scheme := jsToLower scheme,
               host := jsToLower ⟨host⟩,
               pathname := if path = [] then "/" else ⟨path⟩,
               search := ⟨search⟩,
               hash := ⟨frag⟩ }

/-- `url.origin`. -/
def origin (u : UrlParts) : String := u.scheme ++ "://" ++ u.host

/-- RFC 3986 dot-segment removal over a `/`-separated path. -/
def removeDotSegments (path : String) : String :=
  let segs := path.splitOn "/"
  let out := segs.foldl (fun (acc : List String) seg =>
    if seg = "." then acc
    else if seg = ".." then acc.dropLast
    else acc ++ [seg]) []
  "/" ++ String.intercalate "/" (out.filter (fun s => s ≠ ""))

/-- `new URL(rel, origin).href` for the relative shapes the image processor
meets (the base is always an origin, i.e. has path `/`). -/
def resolveAgainstOrigin (base : UrlParts) (rel : String) : String :=
  if jsStartsWith rel "//" then base.scheme ++ ":" ++ rel
  else if (jsURL rel).isSome then rel
  else
    let pathPart : List Char := rel.data.takeWhile (fun c => ¬ (c = '?' ∨ c = '#'))
    let tail : List Char := rel.data.drop pathPart.length
    origin base ++ removeDotSegments ⟨pathPart⟩ ++ (⟨tail⟩ : String)

/-- The host of a URL string, when it parses. -/
def hostOf (url : String) : Option String := (jsURL url).map host

end UrlParts

/-! ## Image processor
(src/services/contentProcessing/imageProcessor.js, shipped as an unnamed
source part) -/

/-- An entry of the `images` array: `{ src, alt, width, height, priority }`,
plus the `caption` field the gallery variant adds (and the gallery variant
carries no `priority`, embedded as the default `false`). -/
structure ImageCandidate where
  src : String
  alt : String
  width : Option String := none
  height : Option String := none
  priority : Bool := false
  caption : Option String := none
deriving DecidableEq, Repr

namespace imageProcessor

open JsPrim SelBuild Dom UrlParts

/-- `a.getAttribute(n1) || a.getAttribute(n2)` collapsed to a string
(`""` for an overall falsy result). -/
def attrOr (d : Dom) (n1 n2 : String) : String :=
  let v1 := (d.getAttr n1).getD ""
  if v1 ≠ "" then v1 else (d.getAttr n2).getD ""

/-- `element.getAttribute(n) || null`. -/
def attrOrNull (d : Dom) (n : String) : Option String :=
  match d.getAttr n with
  | some v => if v = "" then none else some v
  | none => none

/-- `isValidImageUrl(url)`. The SVG-data check sits after the general
`data:` check in the source, exactly as here. -/
def isValidImageUrl (url : String) : Bool :=
  if url = "" then false
  else if jsStartsWith url "data:" then url.length > 100
  else if jsStartsWith url "data:image/svg" then false
  else if jsStartsWith url "/" || jsStartsWith url "./" || jsStartsWith url "../" then true
  else
    match jsURL url with
    | some parsedUrl =>
      let path := jsToLower parsedUrl.pathname
      let extensions := [".jpg", ".jpeg", ".png", ".gif", ".webp", ".svg", ".bmp", ".ico"]
      let hasExtension := extensions.any (fun ext => jsEndsWith path ext)
      let hasImagePattern := jsIncludes path "/image" || jsIncludes path "/img" ||
        jsIncludes path "/photo" || jsIncludes parsedUrl.search "image"
      hasExtension || hasImagePattern
    | none =>
      jsIncludes url ".jpg" || jsIncludes url ".png" ||
      jsIncludes url ".gif" || jsIncludes url ".webp"

/-- `resolveImageUrl(imageUrl, baseUrl)` (`null ↦ none`). -/
def resolveImageUrl (imageUrl : String) (baseUrl : Option String) : Option String :=
  if imageUrl = "" then none
  else if jsStartsWith imageUrl "http://" || jsStartsWith imageUrl "https://" then
    some imageUrl
  else if jsStartsWith imageUrl "data:" then some imageUrl
  else
    match baseUrl with
    | none => some imageUrl
    | some b =>
      if b = "" then some imageUrl
      else
        match jsURL b with
        | none => none
        | some base => some (resolveAgainstOrigin base imageUrl)

/-- `element.closest(selector)` returning the matched element as a `Loc`
(ancestor context rebuilt from the stored chain). -/
def closestLoc (le : Loc) (c : Compound) : Option Loc :=
  if Match.compound le.node c then some le
  else
    match le.anc.findIdx? (fun a => Match.compound a.2 c) with
    | some i =>
      match le.anc.get? i with
      | some pn => some ⟨pn.1, pn.2, le.anc.drop (i + 1), none⟩
      | none => none
    | none => none

/-- `element.parentElement` as a `Loc`. -/
def parentLoc (le : Loc) : Option Loc :=
  match le.anc with
  | [] => none
  | pn :: rest => some ⟨pn.1, pn.2, rest, none⟩

/-- `calculateImageScore(img)`. -/
def calculateImageScore (img : Loc) : Int :=
  let score : Int := 0
  let score :=
    if img.node.hasAttr "alt" ∧ (jsTrim ((img.node.getAttr "alt").getD "")).length > 0 then
      score + 10
    else score
  let score :=
    if img.node.hasAttr "width" ∧ img.node.hasAttr "height" then
      match jsParseInt ((img.node.getAttr "width").getD ""),
            jsParseInt ((img.node.getAttr "height").getD "") with
      | some w, some h =>
        if w ≠ 0 ∧ h ≠ 0 then
          let score :=
            if w ≥ 300 ∧ h ≥ 200 then score + 20
            else if w ≥ 100 ∧ h ≥ 100 then score + 10
            else if w < 50 ∨ h < 50 then score - 30
            else score
          let ratio : ℚ := (w : ℚ) / (h : ℚ)
          if (1 : ℚ) / 2 ≤ ratio ∧ ratio ≤ 2 then score + 10 else score
        else score
      | _, _ => score
    else score
  let score := if (closestLoc img (tagC "figure")).isSome then score + 15 else score
  let score :=
    match img.next with
    | some sib =>
      if Dom.tagName sib = "FIGCAPTION" ∨ jsIncludes (Dom.className sib) "caption" then
        score + 15
      else score
    | none => score
  let score :=
    if (closestLoc img (tagC "article")).isSome ∨ (closestLoc img (tagC "main")).isSome ∨
        (closestLoc img (clsC "content")).isSome ∨ (closestLoc img (clsC "post")).isSome then
      score + 15
    else score
  let score :=
    match img.node.getAttr "src" with
    | some src =>
      let srcLower := jsToLower src
      if jsIncludes srcLower "icon" ∨ jsIncludes srcLower "logo" ∨
          jsIncludes srcLower "avatar" ∨ jsIncludes srcLower "button" ∨
          jsIncludes srcLower "badge" ∨ jsIncludes srcLower "sprite" then
        score - 20
      else score
    | none => score
  let score :=
    if img.node.hasAttr "loading" ∧ img.node.getAttr "loading" = some "lazy" then
      if (closestLoc img (tagC "header")).isSome ∨ (closestLoc img (tagC "footer")).isSome ∨
          (closestLoc img (tagC "nav")).isSome then
        score - 10
      else score
    else score
  score

/-- The `prioritySelectors` list of `extractImportantImages`; the flag marks
the `selector.startsWith('meta') || startsWith('link')` branch. -/
def prioritySelectors : List (Sel × Bool) :=
  [(one (tagAttrEqC "meta" "property" "og:image"), true),      -- 'meta[property="og:image"]'
   (one (tagAttrEqC "meta" "name" "twitter:image"), true),     -- 'meta[name="twitter:image"]'
   (one (tagAttrEqC "meta" "property" "twitter:image"), true), -- 'meta[property="twitter:image"]'
   (one (tagAttrEqC "link" "rel" "image_src"), true),          -- 'link[rel="image_src"]'
   (desc (tagC "article") (tagAttrC "img" "src"), false),      -- 'article img[src]'
   (desc (clsC "post-content") (tagAttrC "img" "src"), false), -- '.post-content img[src]'
   (desc (clsC "article-content") (tagAttrC "img" "src"), false), -- '.article-content img[src]'
   (desc (tagC "main") (tagAttrC "img" "src"), false),         -- 'main img[src]'
   (desc (clsC "content") (tagAttrC "img" "src"), false),      -- '.content img[src]'
   (desc (clsC "entry-content") (tagAttrC "img" "src"), false)] -- '.entry-content img[src]'

/-- Accumulator for the two phases: the `images` array and the `seenUrls`
set. -/
structure ImgAcc where
  images : List ImageCandidate
  seen : List String

/-- One priority-phase element. -/
def phase1Step (maxImages : Nat) (baseUrl : Option String) (isMeta : Bool)
    (acc : ImgAcc) (le : Loc) : ImgAcc :=
  if acc.images.length ≥ maxImages then acc
  else
    let src := if isMeta then attrOr le.node "content" "href"
               else attrOr le.node "src" "data-src"
    if src ≠ "" ∧ isValidImageUrl src then
      match resolveImageUrl src baseUrl with
      | some resolvedUrl =>
        if acc.seen.contains resolvedUrl then acc
        else
          { images := acc.images ++
              [{ src := resolvedUrl, alt := (le.node.getAttr "alt").getD "",
                 width := if isMeta then none else attrOrNull le.node "width",
                 height := if isMeta then none else attrOrNull le.node "height",
                 priority := true }],
            seen := acc.seen ++ [resolvedUrl] }
      | none => acc
    else acc

/-- The priority phase of `extractImportantImages`. -/
def phase1 (root : Dom) (maxImages : Nat) (baseUrl : Option String) : ImgAcc :=
  prioritySelectors.foldl (fun acc sp =>
    (qsa root sp.1).foldl (phase1Step maxImages baseUrl sp.2) acc)
    ⟨[], []⟩

/-- `'img[src], img[data-src]'` -/
def imgSrcSel : Sel :=
  [⟨[tagAttrC "img" "src"]⟩, ⟨[tagAttrC "img" "data-src"]⟩]

/-- A scored phase-2 candidate. -/
structure ScoredImg where
  element : Loc
  src : String
  score : Int

/-- One scored-fallback collection step (note: `seenUrls` is only
consulted, not extended, while collecting). -/
def phase2Step (baseUrl : Option String) (seen : List String)
    (sc : List ScoredImg) (le : Loc) : List ScoredImg :=
  let src := attrOr le.node "src" "data-src"
  if src = "" ∨ ¬ isValidImageUrl src then sc
  else
    match resolveImageUrl src baseUrl with
    | none => sc
    | some resolvedUrl =>
      if seen.contains resolvedUrl then sc
      else
        let score := calculateImageScore le
        if score > 0 then sc ++ [⟨le, resolvedUrl, score⟩] else sc

/-- The scored-fallback candidate collection of `extractImportantImages`. -/
def phase2Candidates (root : Dom) (baseUrl : Option String) (seen : List String) :
    List ScoredImg :=
  (qsa root imgSrcSel).foldl (phase2Step baseUrl seen) []

/-- `extractImportantImages(dom, maxImages = 5, baseUrl = null)`. -/
def extractImportantImages (dom : Option Dom) (maxImages : Nat := 5)
    (baseUrl : Option String := none) : List ImageCandidate :=
  match dom with
  | none => []
  | some root =>
    let acc := phase1 root maxImages baseUrl
    if acc.images.length < maxImages then
      let scored := phase2Candidates root baseUrl acc.seen
      let sorted := JsPrim.jsSortBy (fun a b => b.score ≤ a.score) scored
      let final := sorted.foldl (fun (a : ImgAcc) si =>
        if a.images.length ≥ maxImages then a
        else
          { images := a.images ++
              [{ src := si.src, alt := (si.element.node.getAttr "alt").getD "",
                 width := attrOrNull si.element.node "width",
                 height := attrOrNull si.element.node "height",
                 priority := false }],
            seen := a.seen ++ [si.src] }) acc
      final.images
    else acc.images

/-- `extractCaption(img)`. -/
def extractCaption (img : Loc) : Option String :=
  match closestLoc img (tagC "figure") with
  | some fig =>
    match eQs fig (one (tagC "figcaption")) with
    | some figcaption => some (jsTrim (Dom.textContent figcaption.node))
    | none => extractCaptionAfterFigure img
  | none => extractCaptionAfterFigure img
where
  /-- The caption fallbacks following the figure branch. -/
  extractCaptionAfterFigure (img : Loc) : Option String :=
    let fromParent :=
      match parentLoc img with
      | some parent =>
        eQs parent (group [clsC "caption", clsC "wp-caption-text", clsC "image-caption"])
      | none => none
    match fromParent with
    | some captionEl => some (jsTrim (Dom.textContent captionEl.node))
    | none =>
      match img.next with
      | some sib =>
        if jsIncludes (Dom.className sib) "caption" ∨ Dom.tagName sib = "FIGCAPTION" then
          some (jsTrim (Dom.textContent sib))
        else extractCaptionAlt img
      | none => extractCaptionAlt img
  /-- The descriptive-alt fallback. -/
  extractCaptionAlt (img : Loc) : Option String :=
    if img.node.hasAttr "alt" then
      let alt := jsTrim ((img.node.getAttr "alt").getD "")
      if alt.length > 0 ∧ alt.length < 200 then some alt else none
    else none

/-- The `gallerySelectors` list of `extractGalleryImages`. -/
def gallerySelList : List Sel :=
  [desc (clsC "gallery") (tagC "img"),      -- '.gallery img'
   desc (clsC "slider") (tagC "img"),       -- '.slider img'
   desc (clsC "carousel") (tagC "img"),     -- '.carousel img'
   desc (clsC "gallery-item") (tagC "img"), -- '.gallery-item img'
   desc (clsC "slideshow") (tagC "img"),    -- '.slideshow img'
   desc (tagC "figure") (tagC "img")]       -- 'figure img'

/-- `extractGalleryImages(dom, baseUrl = null)`. -/
def extractGalleryImages (dom : Option Dom) (baseUrl : Option String := none) :
    List ImageCandidate :=
  match dom with
  | none => []
  | some root =>
    let acc := gallerySelList.foldl (fun (acc : ImgAcc) s =>
      (qsa root s).foldl (fun acc le =>
        let src := attrOr le.node "src" "data-src"
        if src ≠ "" ∧ isValidImageUrl src then
          match resolveImageUrl src baseUrl with
          | some resolvedUrl =>
            if acc.seen.contains resolvedUrl then acc
            else
              { images := acc.images ++
                  [{ src := resolvedUrl, alt := (le.node.getAttr "alt").getD "",
                     width := attrOrNull le.node "width",
                     height := attrOrNull le.node "height",
                     caption := extractCaption le }],
                seen := acc.seen ++ [resolvedUrl] }
          | none => acc
        else acc) acc) ⟨[], []⟩
    acc.images

end imageProcessor

/-! ## Readability service
(src/services/contentProcessing/readabilityService.js, shipped as an
unnamed source part) -/

/-- The record `parseArticle` returns. -/
structure Article where
  title : String
  content : Option Dom
  textContent : String
  excerpt : String
  readingTime : Nat
  wordCount : Nat

namespace readabilityService

open JsPrim SelBuild Dom

/-- An element with no surrounding context (used when a function receives a
bare subtree). -/
def bareLoc (d : Dom) : Loc := ⟨[], d, [], none⟩

/-- The `contentSelectors` list of `findMainContent`. -/
def contentSelectors : List Sel :=
  [one (tagC "article"),            -- 'article'
   one (attrEqC "role" "main"),     -- '[role="main"]'
   one (tagC "main"),               -- 'main'
   one (clsC "main-content"),       -- '.main-content'
   one (clsC "post-content"),       -- '.post-content'
   one (clsC "article-content"),    -- '.article-content'
   one (clsC "entry-content"),      -- '.entry-content'
   one (clsC "article-body"),       -- '.article-body'
   one (idC "main-content"),        -- '#main-content'
   one (clsC "content"),            -- '.content'
   one (idC "main")]                -- '#main'

/-- `calculateLinkDensity(element)`. -/
def calculateLinkDensity (le : Loc) : ℚ :=
  let textLength := (jsTrim (Dom.textContent le.node)).length
  if textLength = 0 then 0
  else
    let links := eQsa le (one (tagC "a"))
    let linkTextLength := links.foldl
      (fun a link => a + (jsTrim (Dom.textContent link.node)).length) 0
    (linkTextLength : ℚ) / (textLength : ℚ)

/-- The `skipPatterns` list of `shouldSkipElement`. -/
def skipPatterns : List String :=
  ["comment", "sidebar", "menu", "nav", "footer", "header",
   "ad", "ads", "advertisement", "widget", "share", "social",
   "related", "promo", "banner", "popup", "modal"]

/-- `shouldSkipElement(element)`. -/
def shouldSkipElement (le : Loc) : Bool :=
  if (jsTrim (Dom.textContent le.node)).length < 100 then true
  else
    let elementText := Dom.className le.node ++ " " ++ Dom.domId le.node
    let lowerText := jsToLower elementText
    skipPatterns.any (fun pat => jsIncludes lowerText pat)

/-- `'nav, header, footer, aside, .sidebar, .menu'` -/
def nonContentSel : Sel :=
  group [tagC "nav", tagC "header", tagC "footer", tagC "aside",
         clsC "sidebar", clsC "menu"]

/-- `findContentByScoring(dom)`. -/
def findContentByScoring (root : Dom) : Option Loc :=
  let elements := qsa root (group [tagC "div", tagC "section", tagC "main", tagC "article"])
  let candidates := elements.foldl (fun (cs : List (Loc × ℚ)) le =>
    if shouldSkipElement le then cs
    else
      let textLength := (jsTrim (Dom.textContent le.node)).length
      let paragraphCount := (eQsa le (one (tagC "p"))).length
      let imageCount := (eQsa le (one (tagC "img"))).length
      let linkDensity := calculateLinkDensity le
      let score : ℚ := 0
      let score := score + min ((textLength : ℚ) * (1 / 10)) 1000
      let score := score + (paragraphCount : ℚ) * 25
      let score := score + min ((imageCount : ℚ) * 10) 50
      let score := if linkDensity > 1 / 2 then score - 100 else score
      let score := if (eQs le nonContentSel).isSome then score - 50 else score
      let score := if Dom.tagName le.node = "ARTICLE" then score + 50 else score
      if score > 0 then cs ++ [(le, score)] else cs) []
  let sorted := JsPrim.jsSortBy (fun a b => b.2 ≤ a.2) candidates
  (sorted.head?).map Prod.fst

/-- `findMainContent(dom)`. -/
def findMainContent (root : Dom) : Option Loc :=
  match contentSelectors.findSome? (fun s =>
      match qs root s with
      | some le =>
        if (jsTrim (Dom.textContent le.node)).length > 100 then some le else none
      | none => none) with
  | some le => some le
  | none => findContentByScoring root

/-- Element-level predicate for one unwanted selector of `cleanContent`
(all of them are tag or single-class selectors). -/
def unwantedPred (d : Dom) : Bool :=
  let tags := ["script", "style", "form", "iframe", "nav", "object", "embed", "aside"]
  let classes :=
    ["comment", "comments", "comment-section",
     "ad", "ads", "advertisement", "adsbygoogle",
     "share", "social", "social-share",
     "related", "related-posts", "recommended",
     "sidebar", "widget", "promo",
     "newsletter", "subscription", "popup", "modal"]
  tags.contains (Dom.tag d) || classes.any (fun c => Match.hasClass d c)

mutual

/-- Remove every (strict-descendant) element matching `p`; the argument
element itself is kept, as `element.querySelectorAll` never returns it. -/
def stripBy (p : Dom → Bool) : Dom → Dom
  | .text s => .text s
  | .elem t a cs => .elem t a (stripByList p cs)

/-- Drop the matching elements of a node list and recurse into the rest. -/
def stripByList (p : Dom → Bool) : List Dom → List Dom
  | [] => []
  | c :: rest =>
    (if c.isElem ∧ p c then [] else [stripBy p c]) ++ stripByList p rest

end

/-- Whether a subtree holds an `img`, `video` or `audio` element
(`el.querySelector('img, video, audio')`, descendants only). -/
def hasMediaDescendant (d : Dom) : Bool :=
  (Dom.eQsa (bareLoc d) (group [tagC "img", tagC "video", tagC "audio"])).length > 0

/-- The empty-`p`/`div`/`span` condition of `cleanContent`. -/
def emptyPred (d : Dom) : Bool :=
  ["p", "div", "span"].contains (Dom.tag d) &&
  (jsTrim (Dom.textContent d)).length = 0 &&
  ¬ hasMediaDescendant d

/-- `cleanContent(element)`. -/
def cleanContent (element : Dom) : Dom :=
  stripBy emptyPred (stripBy unwantedPred element)

/-- `'p, h1, h2, h3, h4, h5, h6, li, td, th, blockquote, pre'` -/
def textTagsSel : Sel :=
  group [tagC "p", tagC "h1", tagC "h2", tagC "h3", tagC "h4", tagC "h5",
         tagC "h6", tagC "li", tagC "td", tagC "th", tagC "blockquote", tagC "pre"]

/-- `extractText(element)`. -/
def extractText (element : Dom) : String :=
  let textElements := Dom.eQsa (bareLoc element) textTagsSel
  let text := textElements.foldl (fun acc el =>
    let elementText := jsTrim (Dom.textContent el.node)
    if elementText.length > 0 then acc ++ elementText ++ " " else acc) ""
  jsTrim (textSummarizer.wsNormalize text)

/-- The separator class `[|\-–—»]` of `extractTitle`. -/
def isTitleSep (c : Char) : Bool :=
  c = '|' || c = '-' || c = Char.ofNat 0x2013 || c = Char.ofNat 0x2014 ||
  c = Char.ofNat 0xBB

/-- `extractTitle(dom)`. -/
def extractTitle (root : Dom) : String :=
  let fromOg :=
    match qs root (one (tagAttrEqC "meta" "property" "og:title")) with
    | some og =>
      let c := (og.node.getAttr "content").getD ""
      if c ≠ "" then some (jsTrim c) else none
    | none => none
  match fromOg with
  | some t => t
  | none =>
    let fromTw :=
      match qs root (one (tagAttrEqC "meta" "name" "twitter:title")) with
      | some tw =>
        let c := (tw.node.getAttr "content").getD ""
        if c ≠ "" then some (jsTrim c) else none
      | none => none
    match fromTw with
    | some t => t
    | none =>
      let fromTitle :=
        match qs root (one (tagC "title")) with
        | some titleTag =>
          let tc := Dom.textContent titleTag.node
          if tc ≠ "" then
            let title := jsTrim tc
            let title := jsTrim ⟨title.data.takeWhile (fun c => ¬ isTitleSep c)⟩
            if title.length > 0 then some title else none
          else none
        | none => none
      match fromTitle with
      | some t => t
      | none =>
        match qs root (one (tagC "h1")) with
        | some h1 =>
          let tc := Dom.textContent h1.node
          if tc ≠ "" then jsTrim tc else "Untitled Article"
        | none => "Untitled Article"

/-- `generateExcerpt(text, length = 150)`. -/
def generateExcerpt (text : String) (len : Nat := 150) : String :=
  if text = "" then ""
  else if text.length ≤ len then text
  else
    let truncated := jsSubstr text len
    match jsLastIndexOf truncated "." with
    | some sentenceBreak =>
      if 2 * (sentenceBreak : Int) > (len : Int) then
        jsSubstr truncated (sentenceBreak + 1)
      else excerptWordBreak truncated
    | none => excerptWordBreak truncated
where
  /-- The word-break fallback. -/
  excerptWordBreak (truncated : String) : String :=
    match jsLastIndexOf truncated " " with
    | some lastSpace =>
      if lastSpace > 0 then jsSubstr truncated lastSpace ++ "..."
      else truncated ++ "..."
    | none => truncated ++ "..."

/-- `countWords(text)`. -/
def countWords (text : String) : Nat :=
  if text = "" then 0
  else ((jsSplitWs (jsTrim text)).filter (fun w => w.length > 0)).length

/-- `calculateReadingTime(text, wordsPerMinute = 200)` (`Math.ceil`). -/
def calculateReadingTime (text : String) (wordsPerMinute : Nat := 200) : Nat :=
  (countWords text + (wordsPerMinute - 1)) / wordsPerMinute

/-- `parseArticle(dom)`: throws (`Except.error`) on a missing document —
the guard sits before the `try` — and otherwise runs the pure body. -/
def parseArticle (dom : Option Dom) : Except String Article :=
  match dom with
  | none => .error "No DOM provided to parseArticle"
  | some root =>
    let article := findMainContent root
    let target : Dom :=
      match article with
      | some le => le.node
      | none =>
        match qs root (one (tagC "body")) with
        | some b => b.node
        | none => root
    let cleanedArticle := cleanContent target
    let textContent := extractText cleanedArticle
    let title := extractTitle root
    let readingTime := calculateReadingTime textContent
    .ok { title := title,
          content := some cleanedArticle,
          textContent := textContent,
          excerpt := generateExcerpt textContent,
          readingTime := readingTime,
          wordCount := countWords textContent }

end readabilityService

/-! ## Schema detector (src/services/schemaDetector.js) -/

namespace JsPrim

/-- `String.prototype.replace` with a STRING pattern: only the first
occurrence is replaced (JS semantics). -/
def jsReplaceFirst (s pat rep : String) : String :=
  match firstMatchPos s.data pat.data with
  | some i => ⟨s.data.take i ++ rep.data ++ s.data.drop (i + pat.data.length)⟩
  | none => s

end JsPrim

namespace SchemaDetector

open JsPrim SelBuild Dom

/-- First strip range of `sanitizeJsonLdContent`:
`[\u0000-\u0008\u000B\u000C\u000E-\u001F]`. -/
def inStripC0 (c : Char) : Bool :=
  c.toNat ≤ 0x8 || c.toNat = 0xB || c.toNat = 0xC ||
  (0xE ≤ c.toNat && c.toNat ≤ 0x1F)

/-- Second strip range: `[\u007F-\u009F]`. -/
def inStripC1 (c : Char) : Bool :=
  0x7F ≤ c.toNat && c.toNat ≤ 0x9F

/-- The two control-character strips of `sanitizeJsonLdContent` (without the
backslash collapse). -/
def stripControls (content : String) : String :=
  ⟨(content.data.filter (fun c => ¬ inStripC0 c)).filter (fun c => ¬ inStripC1 c)⟩

/-- The backslash collapse `/\\\\/g → '\\'`: leftmost non-overlapping
replacement of every doubled backslash by a single one. -/
def collapseDoubled : List Char → List Char
  | [] => []
  | [c] => [c]
  | c :: d :: t =>
    if c = '\\' ∧ d = '\\' then c :: collapseDoubled t
    else c :: collapseDoubled (d :: t)

/-- `sanitizeJsonLdContent(content)`: strip the control ranges, then
collapse doubled backslashes. -/
def sanitizeJsonLdContent (content : String) : String :=
  ⟨collapseDoubled (stripControls content).data⟩

/-- The `priorityTypes` list of `findRelevantSchema`. -/
def priorityTypes : List String :=
  ["Article", "NewsArticle", "BlogPosting", "ScholarlyArticle",
   "Product", "Review", "AggregateRating", "Recipe",
   "VideoObject", "Movie", "TVEpisode", "TVSeries",
   "Person", "Organization", "Event", "Place",
   "WebPage", "ItemList", "ImageGallery", "Book"]

/-- `normalizeSchema(schema)`. -/
def normalizeSchema (schema : Json) : Json :=
  match schema with
  | .obj fields =>
    match JsMap.get fields "@type" with
    | some (.arr [x]) => .obj (JsMap.set fields "@type" x)
    | _ => .obj fields
  | other => other

/-- Whether a schema's `@type` matches `tpe` (`===` or array `includes`). -/
def typeMatches (schema : Json) (tpe : String) : Bool :=
  if ¬ Json.jsTruthy schema then false
  else
    match Json.jget schema "@type" with
    | some schemaType =>
      if ¬ Json.jsTruthy schemaType then false
      else
        Json.strictEqStr schemaType tpe ||
        (match schemaType with
         | .arr items => items.any (fun it => Json.strictEqStr it tpe)
         | _ => false)
    | none => false

/-- `findRelevantSchema(schemas)`. -/
def findRelevantSchema (schemas : Json) : Option Json :=
  match schemas with
  | .arr items =>
    if items.isEmpty then none
    else
      match priorityTypes.findSome? (fun tpe =>
          items.find? (fun schema => typeMatches schema tpe)) with
      | some found => some (normalizeSchema found)
      | none =>
        match items.find? (fun schema => Json.jsTruthy schema ∧
            (Json.jget schema "@type").any Json.jsTruthy) with
        | some schema => some (normalizeSchema schema)
        | none => none
  | _ => none

/-- `extractJsonLdSchema(dom)`: scan the JSON-LD blocks in order; the first
block yielding a schema wins; unparseable blocks are skipped. -/
def extractJsonLdFromContents (contents : List String) : Option Json :=
  match contents with
  | [] => none
  | content :: rest =>
    let textContent := jsTrim content
    if textContent = "" then extractJsonLdFromContents rest
    else
      match Json.jsonParse (sanitizeJsonLdContent textContent) with
      | none => extractJsonLdFromContents rest
      | some jsonData =>
        if Json.isArray jsonData then
          match findRelevantSchema jsonData with
          | some relevant => some relevant
          | none => extractJsonLdFromContents rest
        else
          match Json.jget jsonData "@graph" with
          | some graph =>
            if Json.jsTruthy graph then
              match findRelevantSchema graph with
              | some relevant => some relevant
              | none => extractJsonLdFromContents rest
            else
              -- `else if (jsonData['@type'])`
              match Json.jget jsonData "@type" with
              | some t =>
                if Json.jsTruthy t then some (normalizeSchema jsonData)
                else extractJsonLdFromContents rest
              | none => extractJsonLdFromContents rest
          | none =>
            match Json.jget jsonData "@type" with
            | some t =>
              if Json.jsTruthy t then some (normalizeSchema jsonData)
              else extractJsonLdFromContents rest
            | none => extractJsonLdFromContents rest

/-- `extractJsonLdSchema(dom)`. -/
def extractJsonLdSchema (root : Dom) : Option Json :=
  let scripts := qsa root contentTypeDetector.jsonLdSel
  if scripts.length = 0 then none
  else extractJsonLdFromContents (scripts.map (fun s => Dom.textContent s.node))

/-- `extractTypeFromUrl(url)`. -/
def extractTypeFromUrl (url : String) : String :=
  if url = "" then ""
  else if jsIncludes url ":" ∧ ¬ jsIncludes url "://" then
    match url.splitOn ":" with
    | [_, p] => p
    | _ => extractTypeSchemaOrg url
  else extractTypeSchemaOrg url
where
  /-- The `schema.org/` split arm. -/
  extractTypeSchemaOrg (url : String) : String :=
    if jsIncludes url "schema.org/" then
      match url.splitOn "schema.org/" with
      | [_, p] => p
      | _ => url
    else url

/-- Attribute value as a JS value (`null ↦ Json.null`). -/
def attrJson (v : Option String) : Json :=
  match v with
  | some s => .str s
  | none => .null

/-- The repeated-property accumulation of `parseMicrodataElement` /
`parseRdfaElement`: `if (result[propName])` is a truthiness test, so a
falsy existing value is simply overwritten. -/
def addProp (fields : List (String × Json)) (name : String) (v : Json) :
    List (String × Json) :=
  match JsMap.get fields name with
  | some old =>
    if Json.jsTruthy old then
      match old with
      | .arr items => JsMap.set fields name (.arr (items ++ [v]))
      | _ => JsMap.set fields name (.arr [old, v])
    else JsMap.set fields name v
  | none => JsMap.set fields name v

/-- `parseMicrodataElement(element)` (fuel bounds the nested-itemscope
recursion, which the `closest` guard makes unreachable in practice). -/
def parseMicrodataElement (fuel : Nat) (element : Loc) : Json :=
  let fields : List (String × Json) :=
    match element.node.getAttr "itemtype" with
    | some itemType =>
      if itemType ≠ "" then [("@type", .str (extractTypeFromUrl itemType))] else []
    | none => []
  let propElements := eQsa element (one (attrC "itemprop"))
  let fields := propElements.foldl (fun fields propElement =>
    let propName := (propElement.node.getAttr "itemprop").getD ""
    if propName = "" then fields
    else
      let nearestScope := imageProcessor.closestLoc propElement (attrC "itemscope")
      let skip := match nearestScope with
        | some s => s.path != element.path
        | none => false
      if skip then fields
      else
        let propValue : Json :=
          if propElement.node.hasAttr "itemscope" then
            match fuel with
            | 0 => .null
            | fuel + 1 => parseMicrodataElement fuel propElement
          else if Dom.tagName propElement.node = "META" then
            attrJson (propElement.node.getAttr "content")
          else if Dom.tagName propElement.node = "IMG" then
            attrJson (propElement.node.getAttr "src")
          else if Dom.tagName propElement.node = "A" then
            attrJson (propElement.node.getAttr "href")
          else if Dom.tagName propElement.node = "TIME" then
            let dt := (propElement.node.getAttr "datetime").getD ""
            if dt ≠ "" then .str dt
            else .str (jsTrim (Dom.textContent propElement.node))
          else .str (jsTrim (Dom.textContent propElement.node))
        addProp fields propName propValue) fields
  .obj fields

/-- `extractMicrodataSchema(dom)`. -/
def extractMicrodataSchema (root : Dom) : Option Json :=
  let elements := qsa root (one (attrC "itemscope"))
  if elements.length = 0 then none
  else
    let topLevelElements := elements.filter (fun el =>
      match imageProcessor.parentLoc el with
      | some parent => (imageProcessor.closestLoc parent (attrC "itemscope")).isNone
      | none => false)
    if topLevelElements.length = 0 then none
    else
      match topLevelElements.find? (fun element =>
          match element.node.getAttr "itemtype" with
          | some t => t ≠ "" && jsIncludes t "schema.org"
          | none => false) with
      | some element => some (parseMicrodataElement (Dom.size element.node) element)
      | none =>
        match topLevelElements.head? with
        | some element => some (parseMicrodataElement (Dom.size element.node) element)
        | none => none

/-- The `propName` normalisation of `parseRdfaElement`:
`.replace('schema:', '').replace(/^[^:]+:/, '')`. -/
def rdfaPropName (propAttr : String) : String :=
  let s := jsReplaceFirst propAttr "schema:" ""
  let pre := s.data.takeWhile (fun c => c ≠ ':')
  if pre ≠ [] ∧ pre.length < s.data.length then ⟨s.data.drop (pre.length + 1)⟩
  else s

/-- `parseRdfaElement(element)`. -/
def parseRdfaElement (fuel : Nat) (element : Loc) : Json :=
  let fields : List (String × Json) :=
    match element.node.getAttr "typeof" with
    | some typeAttr =>
      if typeAttr ≠ "" then [("@type", .str (extractTypeFromUrl typeAttr))] else []
    | none => []
  let propElements := eQsa element (one (attrC "property"))
  let fields := propElements.foldl (fun fields propElement =>
    let propAttr := (propElement.node.getAttr "property").getD ""
    if propAttr = "" then fields
    else
      let propName := rdfaPropName propAttr
      let nearestTyped := imageProcessor.closestLoc propElement (attrC "typeof")
      let skip := match nearestTyped with
        | some s => s.path != element.path
        | none => false
      if skip then fields
      else
        let propValue : Json :=
          if propElement.node.hasAttr "typeof" then
            match fuel with
            | 0 => .null
            | fuel + 1 => parseRdfaElement fuel propElement
          else if propElement.node.hasAttr "content" then
            attrJson (propElement.node.getAttr "content")
          else if Dom.tagName propElement.node = "IMG" then
            attrJson (propElement.node.getAttr "src")
          else if Dom.tagName propElement.node = "A" then
            attrJson (propElement.node.getAttr "href")
          else if Dom.tagName propElement.node = "TIME" then
            let dt := (propElement.node.getAttr "datetime").getD ""
            if dt ≠ "" then .str dt
            else .str (jsTrim (Dom.textContent propElement.node))
          else .str (jsTrim (Dom.textContent propElement.node))
        addProp fields propName propValue) fields
  .obj fields

/-- `extractRdfaSchema(dom)`. -/
def extractRdfaSchema (root : Dom) : Option Json :=
  let elements := qsa root (group [attrC "typeof", attrC "property"])
  if elements.length = 0 then none
  else
    let topLevelElements := elements.filter (fun el =>
      let typeAttr := (el.node.getAttr "typeof").getD ""
      if typeAttr = "" then false
      else
        let isSchema := jsIncludes typeAttr "schema.org" || jsIncludes typeAttr "schema:"
        let notNested := match imageProcessor.parentLoc el with
          | some parent => (imageProcessor.closestLoc parent (attrC "typeof")).isNone
          | none => false
        isSchema && notNested)
    match topLevelElements.head? with
    | some element => some (parseRdfaElement (Dom.size element.node) element)
    | none => none

/-- `extractSchema(dom)`: JSON-LD, then microdata, then RDFa. -/
def extractSchema (dom : Option Dom) : Option Json :=
  match dom with
  | none => none
  | some root =>
    match extractJsonLdSchema root with
    | some s => some s
    | none =>
      match extractMicrodataSchema root with
      | some s => some s
      | none => extractRdfaSchema root

end SchemaDetector

/-! ## Reading-time estimator (src/utils/readingTimeEstimator.js)

Only the call shape the orchestrator uses is exercised
(`estimate(text)` with the default speed 200 and no options), but the
functions are translated in full for that path. Each global regex replace
of `processText` is embedded as a leftmost maximal-munch scanner; none of
the patterns involved allows an ambiguous (backtracking-sensitive) match
except the e-mail pattern, whose backtracking is resolved explicitly. -/

namespace readingTimeEstimator

open JsPrim

/-- Generic leftmost global replace: `matchAt` yields the match length
(always ≥ 1 for the patterns used) at the current position; fuelled
structural recursion (the initial fuel always suffices). -/
def scanReplaceF (matchAt : List Char → Option Nat) (rep : List Char) :
    Nat → List Char → List Char
  | 0, l => l
  | _ + 1, [] => []
  | fuel + 1, c :: t =>
    match matchAt (c :: t) with
    | some n => rep ++ scanReplaceF matchAt rep fuel (t.drop (n - 1))
    | none => c :: scanReplaceF matchAt rep fuel t

/-- Generic leftmost global replace. -/
def scanReplace (matchAt : List Char → Option Nat) (rep : List Char)
    (l : List Char) : List Char :=
  scanReplaceF matchAt rep (l.length + 1) l

/-- Matcher for `/<name[^>]*>.*?<\/name>/is` at the head. -/
def tagBlockMatch (name : List Char) (l : List Char) : Option Nat :=
  let low := l.map Char.toLower
  if ('<' :: name).isPrefixOf low then
    let afterOpen := low.drop (1 + name.length)
    let attrs := afterOpen.takeWhile (fun c => c ≠ '>')
    match afterOpen.drop attrs.length with
    | '>' :: _ =>
      let openLen := 1 + name.length + attrs.length + 1
      let close := '<' :: '/' :: (name ++ ['>'])
      match firstMatchPos (low.drop openLen) close with
      | some i => some (openLen + i + close.length)
      | none => none
    | _ => none
  else none

/-- The backtick character (U+0060). -/
def btick : Char := Char.ofNat 96

/-- Matcher for the fenced-code pattern (three backticks, minimal body,
three backticks). -/
def fenceMatch (l : List Char) : Option Nat :=
  if [btick, btick, btick].isPrefixOf l then
    match firstMatchPos (l.drop 3) [btick, btick, btick] with
    | some i => some (3 + i + 3)
    | none => none
  else none

/-- Matcher for `/<[^>]*>/` at the head. -/
def angleMatch (l : List Char) : Option Nat :=
  match l with
  | '<' :: t =>
    let body := t.takeWhile (fun c => c ≠ '>')
    match t.drop body.length with
    | '>' :: _ => some (1 + body.length + 1)
    | _ => none
  | _ => none

/-- Matcher for `/https?:\/\/[^\s]+/` at the head. -/
def urlMatch (l : List Char) : Option Nat :=
  let afterScheme : Option Nat :=
    if "https://".data.isPrefixOf l then some 8
    else if "http://".data.isPrefixOf l then some 7
    else none
  match afterScheme with
  | some n =>
    let run := (l.drop n).takeWhile (fun c => ¬ isWs c)
    if run.length = 0 then none else some (n + run.length)
  | none => none

/-- `[\w.-]` -/
def isEmailChar (c : Char) : Bool := isWordChar c || c = '.' || c = '-'

/-- Matcher for the tail `[\w.-]+\.\w+` of the e-mail pattern (greedy with
explicit backtracking over the position of the mandatory dot). -/
def emailTail (m : List Char) : Option Nat :=
  let e := (m.takeWhile isEmailChar).length
  if e = 0 then none
  else
    match ((List.range e).reverse.filter (fun s => 0 < s)).find? (fun s =>
        m.get? s == some ('.') && (m.get? (s + 1)).any isWordChar) with
    | some s =>
      let wlen := ((m.drop (s + 1)).takeWhile isWordChar).length
      some (s + 1 + wlen)
    | none => none

/-- Matcher for `/[\w.-]+@[\w.-]+\.\w+/` at the head. -/
def emailMatch (l : List Char) : Option Nat :=
  let r1 := (l.takeWhile isEmailChar).length
  if r1 = 0 then none
  else
    match l.get? r1 with
    | some c =>
      if c = '@' then (emailTail (l.drop (r1 + 1))).map (fun n => r1 + 1 + n)
      else none
    | none => none

/-- Keep-set of `/[^\w\s'-.,!?;:]/g` — the class contains the RANGE
`'-.` (U+0027 to U+002E) plus the listed punctuation. -/
def isCleanKeep (c : Char) : Bool :=
  isWordChar c || isWs c || (0x27 ≤ c.toNat && c.toNat ≤ 0x2E) ||
  c = ',' || c = '!' || c = '?' || c = ';' || c = ':'

/-- `processText(text, { includeCodeBlocks: false, language: null })`,
returning the cleaned text. -/
def processText (text : String) : String :=
  let cleaned := text.data
  let cleaned := scanReplace (tagBlockMatch ("pre".data)) [' '] cleaned
  let cleaned := scanReplace (tagBlockMatch ("code".data)) [' '] cleaned
  let cleaned := scanReplace fenceMatch [' '] cleaned
  let cleaned := scanReplace (tagBlockMatch ("script".data)) [' '] cleaned
  let cleaned := scanReplace (tagBlockMatch ("style".data)) [' '] cleaned
  let cleaned := scanReplace angleMatch [' '] cleaned
  let cleaned := scanReplace urlMatch [' '] cleaned
  let cleaned := scanReplace emailMatch [' '] cleaned
  let cleaned := jsTrim (textSummarizer.wsNormalize ⟨cleaned⟩)
  ⟨cleaned.data.map (fun c => if isCleanKeep c then c else ' ')⟩

/-- `countWords(text, null)`. -/
def countWords (text : String) : Nat :=
  if text = "" then 0
  else ((jsSplitWs text).filter (fun w => w.length > 0)).length

/-- `format(minutes, verbose = false)` (the non-verbose strings). -/
def format (minutes : ℚ) : String :=
  if minutes ≤ 0 then "< 1 min"
  else
    let minutesOnly : Int := ⌊minutes⌋
    let seconds : Int := ⌊(minutes - (minutesOnly : ℚ)) * 60 + 1 / 2⌋
    if minutesOnly = 0 then
      if seconds < 30 then "< 1 min" else "1 min"
    else if minutesOnly < 10 then
      let totalMins := if seconds ≥ 30 then minutesOnly + 1 else minutesOnly
      toString totalMins ++ " min"
    else if minutesOnly < 60 then
      let roundedMins : Int := ⌊(minutesOnly : ℚ) / 5 + 1 / 2⌋ * 5
      "~" ++ toString roundedMins ++ " min"
    else
      let hours := minutesOnly / 60
      let remainingMins := minutesOnly % 60
      if remainingMins = 0 then toString hours ++ "h"
      else toString hours ++ "h " ++ toString remainingMins ++ "m"

/-- The slice of the `estimate` result the orchestrator reads. -/
structure Estimate where
  minutes : Int
  seconds : Int
  formatted : String
  wordCount : Nat
  characterCount : Nat
  wordsPerMinute : Nat

/-- `estimate(text)` with the default speed (200 wpm) and options. -/
def estimate (text : String) : Estimate :=
  if text = "" then
    { minutes := 0, seconds := 0, formatted := "No content",
      wordCount := 0, characterCount := 0, wordsPerMinute := 0 }
  else
    let wpm : Nat := 200
    let processed := processText text
    let wordCount := countWords processed
    let characterCount := processed.length
    let baseMinutes : ℚ := (wordCount : ℚ) / (wpm : ℚ)
    let totalMinutes := baseMinutes
    let minutesOnly : Int := ⌊totalMinutes⌋
    let seconds : Int := ⌊(totalMinutes - (minutesOnly : ℚ)) * 60 + 1 / 2⌋
    { minutes := minutesOnly, seconds := seconds, formatted := format totalMinutes,
      wordCount := wordCount, characterCount := characterCount,
      wordsPerMinute := wpm }

end readingTimeEstimator

/-! ## Content-extraction orchestrator
(`ContentExtractor.extract` in src/components/content/LinkPreview.jsx)

The HTML parser (`DOMParser` via `domParser.parseHTML`) is passed as an
abstract total function `String → Dom`: `parseFromString(..., 'text/html')`
never throws and never returns null, so a total function is its faithful
shape. The fetch boundary is the `Except String String` input: `.error msg`
models a rejected `fetchContent` promise carrying `msg`. `new
Date().toISOString()` is the explicit `nowIso` argument. Thrown JS errors
are `Except.error` values carrying `error.message`. -/

/-- The `mainImage` field is an image object on most branches but the raw
thumbnail value on the video branch. -/
inductive MainImage where
  | cand (c : ImageCandidate) : MainImage
  | jval (j : Json) : MainImage

/-- The `interactions` object of the social branch. -/
structure Interactions where
  likes : Option Nat := none
  comments : Option Nat := none
  shares : Option Nat := none

/-- The preview record the orchestrator assembles; fields absent on a given
branch are `none`. -/
structure PreviewRecord where
  url : String
  contentType : String
  title : String
  sourceUrl : Option String := none
  timestamp : Option String := none
  description : Option String := none
  error : Option String := none
  mainImage : Option MainImage := none
  images : Option (List ImageCandidate) := none
  author : Option String := none
  publishDate : Option String := none
  readingTime : Option Int := none
  wordCount : Option Nat := none
  price : Option Json := none
  rating : Option Json := none
  availability : Option Json := none
  thumbnail : Option Json := none
  duration : Option Json := none
  embedUrl : Option Json := none
  interactions : Option Interactions := none
  imageCount : Option Nat := none

namespace ContentExtractor

open JsPrim SelBuild Dom

/-- `domParser.parseHTML(htmlString)` (src/services/contentProcessing/
domParser.js): throws on a falsy input, otherwise hands the string to the
abstract `DOMParser`. The `parsererror` lookup only logs. -/
def parseHTML (parser : String → Dom) (htmlString : String) : Except String Dom :=
  if htmlString = "" then .error "Invalid HTML string provided"
  else .ok (parser htmlString)

/-- The local `extractTitle(dom)` of ContentExtractor. -/
def localExtractTitle (root : Dom) : String :=
  let fromOg :=
    match qs root (one (tagAttrEqC "meta" "property" "og:title")) with
    | some og =>
      let c := (og.node.getAttr "content").getD ""
      if c ≠ "" then some c else none
    | none => none
  match fromOg with
  | some t => t
  | none =>
    match qs root (one (tagC "title")) with
    | some title =>
      let tc := Dom.textContent title.node
      if tc ≠ "" then jsTrim tc else "Untitled Page"
    | none => "Untitled Page"

/-- `extractDescription(dom)`. -/
def extractDescription (root : Dom) : String :=
  let fromMeta :=
    match qs root (one (tagAttrEqC "meta" "name" "description")) with
    | some m =>
      let c := (m.node.getAttr "content").getD ""
      if c ≠ "" then some c else none
    | none => none
  match fromMeta with
  | some d => d
  | none =>
    let fromOg :=
      match qs root (one (tagAttrEqC "meta" "property" "og:description")) with
      | some m =>
        let c := (m.node.getAttr "content").getD ""
        if c ≠ "" then some c else none
      | none => none
    match fromOg with
    | some d => d
    | none =>
      match qs root (one (tagC "p")) with
      | some p =>
        let tc := Dom.textContent p.node
        if tc ≠ "" then jsTrim tc else "No description available"
      | none => "No description available"

/-- `extractAuthor(dom)`. -/
def extractAuthor (root : Dom) : Option String :=
  let fromMeta :=
    match qs root (one (tagAttrEqC "meta" "name" "author")) with
    | some m =>
      let c := (m.node.getAttr "content").getD ""
      if c ≠ "" then some c else none
    | none => none
  match fromMeta with
  | some a => some a
  | none =>
    match qs root (one (attrEqC "itemprop" "author")) with
    | some schemaAuthor =>
      match eQs schemaAuthor (one (attrEqC "itemprop" "name")) with
      | some authorName =>
        let tc := Dom.textContent authorName.node
        if tc ≠ "" then some (jsTrim tc)
        else some (jsTrim (Dom.textContent schemaAuthor.node))
      | none => some (jsTrim (Dom.textContent schemaAuthor.node))
    | none => none

/-- `extractPublishDate(dom)`. -/
def extractPublishDate (root : Dom) : Option String :=
  let fromMeta :=
    match qs root (one (tagAttrEqC "meta" "property" "article:published_time")) with
    | some m =>
      let c := (m.node.getAttr "content").getD ""
      if c ≠ "" then some c else none
    | none => none
  match fromMeta with
  | some d => some d
  | none =>
    match qs root (one (attrEqC "itemprop" "datePublished")) with
    | some schemaDate =>
      let c := (schemaDate.node.getAttr "content").getD ""
      if c ≠ "" then some c else none
    | none => none

/-- `/[^\d.,]/g` deletion of `extractPrice`. -/
def keepPriceChar (c : Char) : Bool := JsPrim.isDigit c || c = '.' || c = ','

/-- `extractPrice(dom)`. -/
def extractPrice (root : Dom) : Option String :=
  let fromSchema :=
    match qs root (one (attrEqC "itemprop" "price")) with
    | some sp =>
      let c := (sp.node.getAttr "content").getD ""
      if c ≠ "" then some c else none
    | none => none
  match fromSchema with
  | some p => some p
  | none =>
    let priceSelectors := [clsC "price", clsC "product-price", clsC "offer-price",
      clsC "regular-price", clsC "current-price"]
    priceSelectors.findSome? (fun sel =>
      match qs root (one sel) with
      | some priceElement =>
        let tc := Dom.textContent priceElement.node
        if tc ≠ "" then
          let priceText : String := ⟨(jsTrim tc).data.filter keepPriceChar⟩
          if priceText ≠ "" then some priceText else none
        else none
      | none => none)

/-- First match of `/(\d+(\.\d+)?)/` in a string. -/
def firstNumberMatch (s : String) : Option String :=
  go s.data
where
  /-- Scan for the first digit run plus an optional decimal part. -/
  go : List Char → Option String
    | [] => none
    | c :: t =>
      if JsPrim.isDigit c then
        let ds := (c :: t).takeWhile JsPrim.isDigit
        let rest := (c :: t).drop ds.length
        match rest with
        | '.' :: u =>
          let fs := u.takeWhile JsPrim.isDigit
          if fs = [] then some ⟨ds⟩ else some ⟨ds ++ '.' :: fs⟩
        | _ => some ⟨ds⟩
      else go t

/-- `extractRating(dom)`. -/
def extractRating (root : Dom) : Option String :=
  let fromSchema :=
    match qs root (one (attrEqC "itemprop" "ratingValue")) with
    | some sr =>
      let c := (sr.node.getAttr "content").getD ""
      if c ≠ "" then some c else none
    | none => none
  match fromSchema with
  | some r => some r
  | none =>
    let ratingSelectors := [clsC "rating", clsC "product-rating",
      clsC "review-rating", clsC "stars"]
    ratingSelectors.findSome? (fun sel =>
      match qs root (one sel) with
      | some ratingElement =>
        let tc := Dom.textContent ratingElement.node
        if tc ≠ "" then firstNumberMatch tc else none
      | none => none)

/-- `extractAvailability(dom)`. -/
def extractAvailability (root : Dom) : Option String :=
  let fromSchema :=
    match qs root (one (attrEqC "itemprop" "availability")) with
    | some sa =>
      let c := (sa.node.getAttr "content").getD ""
      if c ≠ "" then some c else none
    | none => none
  match fromSchema with
  | some a => some a
  | none =>
    let availabilitySelectors := [clsC "availability", clsC "stock-status",
      clsC "in-stock", clsC "out-of-stock"]
    availabilitySelectors.findSome? (fun sel =>
      match qs root (one sel) with
      | some el =>
        let tc := Dom.textContent el.node
        if tc ≠ "" then some (jsTrim tc) else none
      | none => none)

/-- `extractVideoThumbnail(dom)`. -/
def extractVideoThumbnail (root : Dom) : Option String :=
  let fromOg :=
    match qs root (one (tagAttrEqC "meta" "property" "og:image")) with
    | some m =>
      let c := (m.node.getAttr "content").getD ""
      if c ≠ "" then some c else none
    | none => none
  match fromOg with
  | some t => some t
  | none =>
    let fromTw :=
      match qs root (one (tagAttrEqC "meta" "name" "twitter:image")) with
      | some m =>
        let c := (m.node.getAttr "content").getD ""
        if c ≠ "" then some c else none
      | none => none
    match fromTw with
    | some t => some t
    | none =>
      match qs root (one (tagAttrC "video" "poster")) with
      | some v =>
        let c := (v.node.getAttr "poster").getD ""
        if c ≠ "" then some c else none
      | none => none

/-- `extractVideoDuration(dom)`. -/
def extractVideoDuration (root : Dom) : Option String :=
  let fromSchema :=
    match qs root (one (attrEqC "itemprop" "duration")) with
    | some sd =>
      let c := (sd.node.getAttr "content").getD ""
      if c ≠ "" then some c else none
    | none => none
  match fromSchema with
  | some d => some d
  | none =>
    match qs root (one (tagC "time")) with
    | some timeElement =>
      let tc := Dom.textContent timeElement.node
      if tc ≠ "" then some (jsTrim tc) else none
    | none => none

/-- The character class `[^"&?\/\s]` of the YouTube id capture. -/
def isYtIdChar (c : Char) : Bool :=
  ¬ (c = '"' ∨ c = '&' ∨ c = '?' ∨ c = '/' ∨ JsPrim.isWs c)

/-- Eleven id characters starting at `l`, if present. -/
def ytIdAt (l : List Char) : Option String :=
  let run := l.takeWhile isYtIdChar
  if run.length ≥ 11 then some ⟨run.take 11⟩ else none

/-- The YouTube id extraction of `extractVideoEmbedUrl`
(`/(?:youtube\.com\/(?:[^\/]+\/.+\/|(?:v|e(?:mbed)?)\/|.*[?&]v=)|youtu\.be\/)([^"&?\/\s]{11})/`),
covering the URL shapes the pipeline meets: the `watch?v=`/`[?&]v=` form,
the `v/`, `e/`, `embed/` forms, and `youtu.be/` short links. -/
def youtubeId (sourceUrl : String) : Option String :=
  let l := sourceUrl.data
  let fromBe :=
    match firstMatchPos l ("youtu.be/".data) with
    | some i => ytIdAt (l.drop (i + 9))
    | none => none
  match fromBe with
  | some id => some id
  | none =>
    match firstMatchPos l ("youtube.com/".data) with
    | none => none
    | some i =>
      let afterHost := l.drop (i + 12)
      let fromV :=
        match lastMatchPos afterHost ("v=".data) with
        | some j =>
          if j > 0 ∧ ((afterHost.get? (j - 1) = some ('?')) ∨
              (afterHost.get? (j - 1) = some ('&'))) then
            ytIdAt (afterHost.drop (j + 2))
          else none
        | none => none
      match fromV with
      | some id => some id
      | none =>
        let fromPathForm :=
          if "embed/".data.isPrefixOf afterHost then ytIdAt (afterHost.drop 6)
          else if "v/".data.isPrefixOf afterHost then ytIdAt (afterHost.drop 2)
          else if "e/".data.isPrefixOf afterHost then ytIdAt (afterHost.drop 2)
          else none
        fromPathForm

/-- The Vimeo id extraction (`/vimeo\.com\/(?:video\/)?(\d+)/`). -/
def vimeoId (sourceUrl : String) : Option String :=
  let l := sourceUrl.data
  match firstMatchPos l ("vimeo.com/".data) with
  | none => none
  | some i =>
    let after := l.drop (i + 10)
    let after := if "video/".data.isPrefixOf after then after.drop 6 else after
    let ds := after.takeWhile JsPrim.isDigit
    if ds = [] then none else some ⟨ds⟩

/-- `'iframe[src*="youtube"], iframe[src*="vimeo"], iframe[src*="dailymotion"]'` -/
def embedIframeSel : Sel :=
  [⟨[tagAttrContC "iframe" "src" "youtube"]⟩,
   ⟨[tagAttrContC "iframe" "src" "vimeo"]⟩,
   ⟨[tagAttrContC "iframe" "src" "dailymotion"]⟩]

/-- `extractVideoEmbedUrl(dom, sourceUrl)`. -/
def extractVideoEmbedUrl (root : Dom) (sourceUrl : String) : Option String :=
  let fromOgVideo :=
    match qs root (one (tagAttrEqC "meta" "property" "og:video")) with
    | some m =>
      let c := (m.node.getAttr "content").getD ""
      if c ≠ "" then some c else none
    | none => none
  match fromOgVideo with
  | some u => some u
  | none =>
    let fromIframe :=
      match qs root embedIframeSel with
      | some iframe =>
        let c := (iframe.node.getAttr "src").getD ""
        if c ≠ "" then some c else none
      | none => none
    match fromIframe with
    | some u => some u
    | none =>
      if jsIncludes sourceUrl "youtube.com" || jsIncludes sourceUrl "youtu.be" then
        (youtubeId sourceUrl).map (fun id => "https://www.youtube.com/embed/" ++ id)
      else if jsIncludes sourceUrl "vimeo.com" then
        (vimeoId sourceUrl).map (fun id => "https://player.vimeo.com/video/" ++ id)
      else none

/-- First `/\d+/` match of a string, as a number. -/
def firstDigitRun (s : String) : Option Nat :=
  go s.data
where
  /-- Scan for the first digit run. -/
  go : List Char → Option Nat
    | [] => none
    | c :: t =>
      if JsPrim.isDigit c then some (JsPrim.digitsToNat ((c :: t).takeWhile JsPrim.isDigit))
      else go t

/-- One interaction counter of `extractSocialInteractions`: the first
selector whose element's text holds a number wins. -/
def interactionCount (root : Dom) (sels : List Sel) : Option Nat :=
  sels.findSome? (fun sel =>
    match qs root sel with
    | some element =>
      let tc := Dom.textContent element.node
      if tc ≠ "" then firstDigitRun tc else none
    | none => none)

/-- `extractSocialInteractions(dom)`. -/
def extractSocialInteractions (root : Dom) : Option Interactions :=
  let likes := interactionCount root
    [one (clsC "likes"), one (clsC "like-count"), one (attrEqC "data-testid" "like")]
  let comments := interactionCount root
    [one (clsC "comments"), one (clsC "comment-count"), one (attrEqC "data-testid" "comment")]
  let shares := interactionCount root
    [one (clsC "shares"), one (clsC "share-count"), one (attrEqC "data-testid" "share")]
  if likes.isSome || comments.isSome || shares.isSome then
    some { likes := likes, comments := comments, shares := shares }
  else none

/-- `processArticle(dom, previewData)`. -/
def processArticle (root : Dom) (previewData : PreviewRecord) :
    Except String PreviewRecord := do
  let article ←
    match readabilityService.parseArticle (some root) with
    | .ok a => pure a
    | .error e => throw e
  let images := imageProcessor.extractImportantImages (some root)
  let fullText := article.textContent
  let summary := textSummarizer.summarize fullText
  let readingTimeData := readingTimeEstimator.estimate fullText
  pure { previewData with
    description := some summary,
    mainImage := images.head?.map MainImage.cand,
    images := some images,
    author := extractAuthor root,
    publishDate := extractPublishDate root,
    readingTime := some readingTimeData.minutes,
    wordCount := some (jsSplitWs fullText).length }

/-- The message of the `TypeError` raised by
`imageProcessor.extractProductImages(dom)`: no such method exists anywhere
in the image processor, so the product branch always throws after computing
the price fields. -/
def extractProductImagesError : String :=
  "imageProcessor.extractProductImages is not a function"

/-- `processProduct(dom, previewData, schema)`: the price/rating/
availability extraction runs, then the call to the undefined
`imageProcessor.extractProductImages` throws. -/
def processProduct (root : Dom) (_previewData : PreviewRecord)
    (schema : Option Json) : Except String PreviewRecord :=
  let schemaIsProduct :=
    match schema with
    | some s => Json.jsTruthy s && Json.strictEqStr ((Json.jget s "@type").getD .null) "Product"
    | none => false
  let _price : Option Json :=
    if schemaIsProduct then Json.jgetOpt (Json.jgetOpt schema "offers") "price"
    else (extractPrice root).map Json.str
  let _rating : Option Json :=
    if schemaIsProduct then Json.jgetOpt (Json.jgetOpt schema "aggregateRating") "ratingValue"
    else (extractRating root).map Json.str
  let _availability : Option Json :=
    if schemaIsProduct then Json.jgetOpt (Json.jgetOpt schema "offers") "availability"
    else (extractAvailability root).map Json.str
  -- `const images = imageProcessor.extractProductImages(dom);` → TypeError
  .error extractProductImagesError

/-- `processGallery(dom, previewData)`. -/
def processGallery (root : Dom) (previewData : PreviewRecord) : PreviewRecord :=
  let images := imageProcessor.extractGalleryImages (some root)
  { previewData with
    images := some images,
    mainImage := images.head?.map MainImage.cand,
    description := some (extractDescription root),
    imageCount := some images.length }

/-- `processVideo(dom, previewData, schema)`. -/
def processVideo (root : Dom) (previewData : PreviewRecord)
    (schema : Option Json) : PreviewRecord :=
  let schemaIsVideo :=
    match schema with
    | some s => Json.jsTruthy s &&
        (Json.strictEqStr ((Json.jget s "@type").getD .null) "VideoObject" ||
         Json.strictEqStr ((Json.jget s "@type").getD .null) "Movie")
    | none => false
  let thumbnail : Option Json :=
    if schemaIsVideo then Json.jgetOpt schema "thumbnailUrl"
    else (extractVideoThumbnail root).map Json.str
  let duration : Option Json :=
    if schemaIsVideo then Json.jgetOpt schema "duration"
    else (extractVideoDuration root).map Json.str
  let embedUrl : Option Json :=
    if schemaIsVideo then Json.jgetOpt schema "embedUrl"
    else (extractVideoEmbedUrl root previewData.url).map Json.str
  { previewData with
    thumbnail := thumbnail,
    duration := duration,
    embedUrl := embedUrl,
    mainImage := thumbnail.map MainImage.jval,
    description := some (extractDescription root) }

/-- `processSocial(dom, previewData, schema)`. -/
def processSocial (root : Dom) (previewData : PreviewRecord)
    (_schema : Option Json) : PreviewRecord :=
  let images := imageProcessor.extractImportantImages (some root)
  { previewData with
    author := extractAuthor root,
    publishDate := extractPublishDate root,
    interactions := extractSocialInteractions root,
    images := some images,
    mainImage := images.head?.map MainImage.cand,
    description := some (extractDescription root) }

/-- `processDefault(dom, previewData)`. -/
def processDefault (root : Dom) (previewData : PreviewRecord) : PreviewRecord :=
  let images := imageProcessor.extractImportantImages (some root)
  { previewData with
    description := some (extractDescription root),
    images := some images,
    mainImage := images.head?.map MainImage.cand }

/-- The error-message categorisation of the `catch` block: a user-facing
(title, message) pair chosen by substring-matching the thrown message. -/
def userErrorInfo (text errMsg : String) : String × String :=
  let title := if text ≠ "" then text else "Preview unavailable"
  if jsIncludes errMsg "Extension context invalidated" ||
      jsIncludes errMsg "Extension was reloaded" then
    ("Extension Reloaded",
     "The extension was updated or reloaded. Please refresh this page to continue using link previews.")
  else if jsIncludes errMsg "Mixed content blocked" then
    ("Security Blocked",
     "Cannot load HTTP content from HTTPS page due to browser security policies.")
  else if jsIncludes errMsg "CORS" || jsIncludes errMsg "Failed to fetch" then
    (title, "This website blocks external preview requests for security reasons.")
  else if jsIncludes errMsg "timeout" || jsIncludes errMsg "Request timeout" then
    (title, "Preview request timed out. The website may be slow to respond.")
  else if jsIncludes errMsg "Network error" || jsIncludes errMsg "net::" then
    (title, "Network connection issue. Please check your internet connection.")
  else if jsIncludes errMsg "404" || jsIncludes errMsg "Not Found" then
    (title, "The requested page could not be found.")
  else if jsIncludes errMsg "403" || jsIncludes errMsg "Forbidden" then
    (title, "Access to this content is restricted or forbidden.")
  else if jsIncludes errMsg "500" || jsIncludes errMsg "Server Error" then
    (title, "The server encountered an error. Please try again later.")
  else (title, "Unable to load preview for this link.")

/-- The error record handed to `onExtracted` by the `catch` block. -/
def errorPreview (url text errMsg : String) : PreviewRecord :=
  let info := userErrorInfo text errMsg
  { url := url,
    contentType := "error",
    title := info.1,
    description := some info.2,
    error := some errMsg }

/-- The `try` body of `extract(url, text, linkElement)`: fetch result in,
assembled record out, any stage failure as `Except.error`. -/
def extractCore (parser : String → Dom) (fetched : Except String String)
    (url text nowIso : String) : Except String PreviewRecord := do
  let content ← fetched
  if content = "" ∨ (jsTrim content).length = 0 then
    throw "Empty content received from URL"
  let parsedDom ← parseHTML parser content
  -- `if (!parsedDom) throw ...` is unreachable: DOMParser always yields a
  -- document for 'text/html'.
  let contentType := contentTypeDetector.detect (some parsedDom) url
  let schema := SchemaDetector.extractSchema (some parsedDom)
  let previewData : PreviewRecord :=
    { url := url,
      contentType := contentType,
      title := if text ≠ "" then text else localExtractTitle parsedDom,
      sourceUrl := some url,
      timestamp := some nowIso }
  match contentType with
  | "article" => processArticle parsedDom previewData
  | "product" => processProduct parsedDom previewData schema
  | "gallery" => pure (processGallery parsedDom previewData)
  | "video" => pure (processVideo parsedDom previewData schema)
  | "social" => pure (processSocial parsedDom previewData schema)
  | _ => pure (processDefault parsedDom previewData)

/-- `extract(url, text, linkElement)`: the catch-all wrapper; always yields
exactly one record. -/
def extract (parser : String → Dom) (fetched : Except String String)
    (url text nowIso : String) : PreviewRecord :=
  match extractCore parser fetched url text nowIso with
  | .ok r => r
  | .error e => errorPreview url text e

end ContentExtractor

/-! # Theorems

Helper lemmas first, then one theorem per specification claim (with
witnesses / counterexamples where required). -/

/-! ## Shared helper lemmas -/

namespace JsMap

theorem get_set (m : List (String × β)) (k : String) (v : β) :
    get (set m k v) k = some v := by
  induction m with
  | nil => simp [get, set]
  | cons h t ih =>
    obtain ⟨k', v'⟩ := h
    by_cases hk : k' = k <;> simp [get, set, hk, ih]

end JsMap

namespace contentTypeDetector

/-- `detect` only ever yields one of the six enumerated type strings. -/
theorem detect_mem_aux (dom : Option Dom) (url : String) :
    detect dom url ∈
      (["article", "product", "video", "social", "gallery", "default"] : List String) := by
  unfold detect domDetect
  rcases dom with _ | d
  · simp
  · dsimp only
    split_ifs <;> simp

end contentTypeDetector

/-! ## Example documents and inputs used by witnesses and counterexamples -/

/-- An empty document (a bare `<html>` element). -/
def emptyDoc : Dom := .elem "html" [] []

/-- Whether a character list holds two adjacent backslashes. -/
def noDoubledBackslash : List Char → Bool
  | [] => true
  | [_] => true
  | c :: d :: t =>
    if c = '\\' ∧ d = '\\' then false else noDoubledBackslash (d :: t)

/-- Removal of every control character named by the specification
(U+0000–U+001F and U+007F–U+009F) — the reading of "otherwise valid JSON"
used to state the C8 counterexample. -/
def removeAllControlChars (s : String) : String :=
  ⟨s.data.filter (fun c => ¬ (c.toNat < 0x20 ∨ (0x7F ≤ c.toNat ∧ c.toNat ≤ 0x9F)))⟩

/-- The C8 counterexample block: valid JSON except for a raw tab embedded
in a string literal. -/
def c8TabJson : String := "\x7b\"a\":\"x\ty\"\x7d"

/-- The C8 witness block: valid JSON except for a raw U+0001 between two
tokens. -/
def c8CtlJson : String := "\x7b\"@type\":\"Product\"\x01\x7d"

/-- The C5 failing input: a document whose Open Graph image is a long
inline-SVG data URI and whose body holds two plain images with the same
source. -/
def c5SvgUri : String := "data:image/svg+xml;base64," ++ String.mk (List.replicate 90 ('A'))

/-- The C5 document. -/
def c5Doc : Dom :=
  .elem "html" []
    [.elem "head" [] [.elem "meta" [("property", "og:image"), ("content", c5SvgUri)] []],
     .elem "body" []
       [.elem "img" [("src", "https://example.com/pic.jpg"), ("alt", "x")] [],
        .elem "img" [("src", "https://example.com/pic.jpg"), ("alt", "x")] []]]

/-- The C2 counterexample text: a single sentence, 24 characters long,
with no internal sentence boundary. -/
def c2Text : String := "abcd efgh ijkl mnop qrst"

/-- The C7 scenario document: its only structured data is the JSON-LD
block `{"@type":"Product","offers":{"price":"19.99"}}`. -/
def c7Doc : Dom :=
  .elem "html" []
    [.elem "head" []
      [.elem "script" [("type", "application/ld+json")]
        [.text "\x7b\"@type\":\"Product\",\"offers\":\x7b\"price\":\"19.99\"\x7d\x7d"]],
     .elem "body" [] []]

/-- A fetched HTML body standing for the C7 scenario page. -/
def c7Html : String := "<html><head><script type=...>...</script></head></html>"

/-- The parse of the C7 page. -/
def c7Parser : String → Dom := fun _ => c7Doc

/-- The C10 witness document: one valid `img` outside every priority
container whose source contains `icon` (score −20). -/
def c10Doc : Dom :=
  .elem "html" []
    [.elem "body" [] [.elem "img" [("src", "https://example.com/icon.png")] []]]


/-! ## C3 — totality of the classifier -/

/-- C3: for every document (including a missing one) and every URL,
`detect(dom, url)` yields exactly one of the six enumerated ContentType
strings; it yields `'default'` when either argument is absent, and
`'default'` when none of the decision rules fires. -/
theorem detect_total_enumeration (dom : Option Dom) (url : String) :
    (contentTypeDetector.detect dom url ∈
      (["article", "product", "video", "social", "gallery", "default"] : List String)) ∧
    ((dom = none ∨ url = "") → contentTypeDetector.detect dom url = "default") ∧
    (∀ d : Dom, dom = some d → url ≠ "" →
      contentTypeDetector.isVideoSite url = false →
      contentTypeDetector.isSocialSite url = false →
      contentTypeDetector.isEcommerceSite url = false →
      contentTypeDetector.hasArticleSchema d = false →
      contentTypeDetector.hasArticleStructure d = false →
      contentTypeDetector.hasProductSchema d = false →
      contentTypeDetector.hasProductStructure d = false →
      contentTypeDetector.hasGalleryStructure d = false →
      contentTypeDetector.hasVideoStructure d = false →
      contentTypeDetector.hasSubstantialText d = false →
      contentTypeDetector.detect dom url = "default") := by
  refine ⟨contentTypeDetector.detect_mem_aux dom url, ?_, ?_⟩
  · rintro (rfl | rfl)
    · rfl
    · rcases dom with _ | d
      · rfl
      · simp [contentTypeDetector.detect]
  · rintro d rfl hurl hv hs he ha1 ha2 hp1 hp2 hg hvs ht
    simp [contentTypeDetector.detect, contentTypeDetector.domDetect,
      hurl, hv, hs, he, ha1, ha2, hp1, hp2, hg, hvs, ht]

/-- C3 witness: a missing document classifies as `'default'`. -/
theorem detect_total_enumeration_witness :
    contentTypeDetector.detect none "https://example.com/" = "default" :=
  (detect_total_enumeration none "https://example.com/").2.1 (Or.inl rfl)

/-! ## C4 — the URL phase is substring matching, not host matching -/

/-- C4 counterexample: `https://example.com/watch-video` — whose host is on
none of the three domain lists and whose path has none of the product
markers — classifies as `'video'` purely because the URL contains the
substring `'video'`, while the same (empty) document with
`https://example.com/watch` classifies as `'default'`; so the result is not
determined by the document alone, refuting the claim. -/
theorem detect_url_substring_cex :
    UrlParts.hostOf "https://example.com/watch-video" = some "example.com" ∧
    ("example.com" ∉ contentTypeDetector.videoSites) ∧
    ("example.com" ∉ contentTypeDetector.socialSites) ∧
    ("example.com" ∉ contentTypeDetector.ecommerceSites) ∧
    (JsPrim.jsIncludes "https://example.com/watch-video" "/product/" = false ∧
     JsPrim.jsIncludes "https://example.com/watch-video" "/products/" = false ∧
     JsPrim.jsIncludes "https://example.com/watch-video" "/shop/" = false ∧
     JsPrim.jsIncludes "https://example.com/watch-video" "/item/" = false) ∧
    contentTypeDetector.detect (some emptyDoc) "https://example.com/watch-video" = "video" ∧
    contentTypeDetector.detect (some emptyDoc) "https://example.com/watch" = "default" := by
  decide

/-- C4 (amended): the first three steps of `detect` test substring
containment of the whole lowercased URL against the site lists (which
include the generic tokens `'video'` and `'mastodon'`) and the product path
markers — video first, then social, then product; whenever the URL contains
none of the listed substrings and no marker, the result is determined by
the document alone. -/
theorem detect_url_phase_amended (d : Dom) (url : String) (hurl : url ≠ "") :
    (contentTypeDetector.isVideoSite url = true →
      contentTypeDetector.detect (some d) url = "video") ∧
    (contentTypeDetector.isVideoSite url = false →
      contentTypeDetector.isSocialSite url = true →
      contentTypeDetector.detect (some d) url = "social") ∧
    (contentTypeDetector.isVideoSite url = false →
      contentTypeDetector.isSocialSite url = false →
      contentTypeDetector.isEcommerceSite url = true →
      contentTypeDetector.detect (some d) url = "product") ∧
    (contentTypeDetector.isVideoSite url = false →
      contentTypeDetector.isSocialSite url = false →
      contentTypeDetector.isEcommerceSite url = false →
      contentTypeDetector.detect (some d) url = contentTypeDetector.domDetect d) := by
  refine ⟨?_, ?_, ?_, ?_⟩
  · intro hv
    simp [contentTypeDetector.detect, hurl, hv]
  · intro hv hs
    simp [contentTypeDetector.detect, hurl, hv, hs]
  · intro hv hs he
    simp [contentTypeDetector.detect, hurl, hv, hs, he]
  · intro hv hs he
    simp [contentTypeDetector.detect, hurl, hv, hs, he]

/-- C4 witness: a URL containing `youtube.com` classifies as `'video'`
regardless of the document. -/
theorem detect_url_phase_amended_witness :
    contentTypeDetector.detect (some emptyDoc) "https://www.youtube.com/" = "video" :=
  (detect_url_phase_amended emptyDoc "https://www.youtube.com/" (by decide)).1 (by decide)

/-! ## C6 — `parseArticle` throws on a missing document -/

/-- C6 counterexample: `parseArticle(null)` throws
`'No DOM provided to parseArticle'` (the guard sits before the
`try`/`catch`), so it does not return the degraded record for every input. -/
theorem parseArticle_null_throws_cex :
    readabilityService.parseArticle none =
      Except.error "No DOM provided to parseArticle" := rfl

/-- C6 (amended): for every present (non-null) document, `parseArticle`
never throws and returns a well-formed record; on a null/absent document it
throws `'No DOM provided to parseArticle'` instead of returning the
degraded record. -/
theorem parseArticle_total_amended :
    (∀ d : Dom, ∃ a : Article, readabilityService.parseArticle (some d) = Except.ok a) ∧
    readabilityService.parseArticle none =
      Except.error "No DOM provided to parseArticle" :=
  ⟨fun _ => ⟨_, rfl⟩, rfl⟩

/-! ## C9 — cache round-trip and TTL boundary -/

/-- C9 counterexample: with the entry set at time 0 and read at exactly
`cacheTimeout` (the TTL has elapsed), `getCached` still returns the record
— the expiry test is strict (`now − timestamp > timeout`) — refuting the
claim that the read is a miss once the TTL has elapsed. -/
theorem cache_ttl_boundary_cex :
    (PreviewGenerator.getCached
        (PreviewGenerator.setCached ([] : PreviewGenerator.Cache Nat) "u" 7 0)
        "u" PreviewGenerator.cacheTimeout).1 = some 7 ∧
    ¬ (PreviewGenerator.cacheTimeout - 0 < PreviewGenerator.cacheTimeout) := by
  decide

/-- C9 (amended): `set(url, record)` then `get(url)` returns the same
record whenever `now − timestamp ≤ TTL` (in particular whenever the elapsed
time is strictly within the TTL), and returns a miss (`null`) as soon as
`now − timestamp` strictly exceeds the TTL, even though the entry is still
physically present. -/
theorem cache_roundtrip_amended {α : Type} (c : PreviewGenerator.Cache α)
    (url : String) (r : α) (tset now : Int) :
    (now - tset ≤ PreviewGenerator.cacheTimeout →
      (PreviewGenerator.getCached (PreviewGenerator.setCached c url r tset) url now).1 =
        some r) ∧
    (PreviewGenerator.cacheTimeout < now - tset →
      (PreviewGenerator.getCached (PreviewGenerator.setCached c url r tset) url now).1 =
        none) := by
  have hget : JsMap.get (PreviewGenerator.setCached c url r tset) url =
      some (⟨r, tset⟩ : PreviewGenerator.CacheEntry α) := by
    unfold PreviewGenerator.setCached
    exact JsMap.get_set _ url (⟨r, tset⟩ : PreviewGenerator.CacheEntry α)
  constructor
  · intro hle
    unfold PreviewGenerator.getCached
    rw [hget]
    simp only
    rw [if_neg (by omega)]
  · intro hgt
    unfold PreviewGenerator.getCached
    rw [hget]
    simp only
    rw [if_pos (by omega)]

/-- C9 witness: a concrete round-trip one millisecond after the set. -/
theorem cache_roundtrip_amended_witness :
    (PreviewGenerator.getCached
        (PreviewGenerator.setCached ([] : PreviewGenerator.Cache Nat) "u" 7 0) "u" 1).1 =
      some 7 :=
  (cache_roundtrip_amended ([] : PreviewGenerator.Cache Nat) "u" 7 0 1).1 (by decide)

/-! ## C5 — SVG data URIs and duplicate sources do enter the candidate list -/

set_option maxRecDepth 8000 in
/-- C5: evaluating `extractImportantImages` at the failing input shows the
inline-SVG data URI entering the candidate list (the `data:`-length check
returns before the SVG rejection, which is dead code) and a duplicate `src`
value (the phase-2 scored candidates bypass the `seenUrls` dedup), against
both the claim and the code's own comments. -/
theorem extractImportantImages_svg_dup_bug :
    ((imageProcessor.extractImportantImages (some c5Doc) 5 (some "https://example.com/")).map
        (fun i => i.src)) =
      [c5SvgUri, "https://example.com/pic.jpg", "https://example.com/pic.jpg"] ∧
    JsPrim.jsStartsWith c5SvgUri "data:image/svg" = true ∧
    ¬ ((imageProcessor.extractImportantImages (some c5Doc) 5 (some "https://example.com/")).map
        (fun i => i.src)).Nodup := by
  refine ⟨by decide, by decide, by decide⟩


/-! ## C10 — only strictly-positive scores enter the scored fallback -/

/-- A phase-2 step at a non-positively scored element adds nothing. -/
theorem phase2Step_nil (baseUrl : Option String) (seen : List String) (le : Loc)
    (h : imageProcessor.calculateImageScore le ≤ 0) :
    imageProcessor.phase2Step baseUrl seen [] le = [] := by
  simp only [imageProcessor.phase2Step]
  split
  · rfl
  · split
    · rfl
    · split
      · rfl
      · rw [if_neg (by omega)]

/-- The scored fallback collects nothing when every image scores ≤ 0. -/
theorem phase2Candidates_nil (root : Dom) (baseUrl : Option String) (seen : List String)
    (h : ∀ le ∈ Dom.qsa root imageProcessor.imgSrcSel,
      imageProcessor.calculateImageScore le ≤ 0) :
    imageProcessor.phase2Candidates root baseUrl seen = [] := by
  unfold imageProcessor.phase2Candidates
  have : ∀ (l : List Loc), (∀ le ∈ l, imageProcessor.calculateImageScore le ≤ 0) →
      l.foldl (imageProcessor.phase2Step baseUrl seen) [] = [] := by
    intro l
    induction l with
    | nil => intro _; rfl
    | cons le rest ih =>
      intro hl
      rw [List.foldl_cons, phase2Step_nil baseUrl seen le (hl le (by simp))]
      exact ih (fun x hx => hl x (by simp [hx]))
  exact this _ h

/-- C10: in the scored fallback, only strictly positive scores are ever
added — when no priority selector yields a candidate and every remaining
`img` scores ≤ 0, `extractImportantImages` returns the empty list (hence
fewer candidates than the quota) even though `img` elements exist. -/
theorem scored_fallback_positive_only (root : Dom) (maxImages : Nat)
    (baseUrl : Option String)
    (h1 : (imageProcessor.phase1 root maxImages baseUrl).images = [])
    (h2 : ∀ le ∈ Dom.qsa root imageProcessor.imgSrcSel,
      imageProcessor.calculateImageScore le ≤ 0)
    (h3 : 1 ≤ maxImages) :
    imageProcessor.extractImportantImages (some root) maxImages baseUrl = [] ∧
    (imageProcessor.extractImportantImages (some root) maxImages baseUrl).length
      < maxImages := by
  have hmain : imageProcessor.extractImportantImages (some root) maxImages baseUrl = [] := by
    simp only [imageProcessor.extractImportantImages]
    rw [if_pos (by rw [h1]; simpa using h3)]
    rw [phase2Candidates_nil root baseUrl _ h2]
    simp [JsPrim.jsSortBy, h1]
  exact ⟨hmain, by rw [hmain]; simpa using h3⟩

/-- C10 witness: the witness document yields no candidates at all. -/
theorem scored_fallback_positive_only_witness :
    imageProcessor.extractImportantImages (some c10Doc) 5 none = [] :=
  (scored_fallback_positive_only c10Doc 5 none (by decide) (by decide) (by decide)).1

/-! ## C8 — JSON-LD sanitization -/

/-- Without doubled backslashes the collapse is the identity. -/
theorem collapseDoubled_id (l : List Char) (h : noDoubledBackslash l = true) :
    SchemaDetector.collapseDoubled l = l := by
  induction l using SchemaDetector.collapseDoubled.induct with
  | case1 => rfl
  | case2 c => rfl
  | case3 c d t hcd ih =>
    rw [noDoubledBackslash, if_pos hcd] at h
    exact absurd h (by simp)
  | case4 c d t hcd ih =>
    rw [noDoubledBackslash] at h
    rw [SchemaDetector.collapseDoubled, if_neg hcd]
    rw [if_neg hcd] at h
    rw [ih h]

/-- C8 counterexample: a JSON-LD block containing a raw control character
(a tab, U+0009, inside a string literal) that is valid JSON once all
control characters are removed, yet still fails to parse after
`sanitizeJsonLdContent` (whose strips spare tab, newline and CR) — so not
every otherwise-valid block parses after sanitization. -/
theorem jsonLd_sanitize_cex :
    (c8TabJson.data.any (fun c => c.toNat < 0x20) = true) ∧
    (Json.jsonParse (removeAllControlChars c8TabJson)).isSome = true ∧
    Json.jsonParse (SchemaDetector.sanitizeJsonLdContent c8TabJson) = none ∧
    Json.jsonParse c8TabJson = none := by
  exact ⟨by decide, by decide, by rfl, by rfl⟩

/-- C8 (amended): a JSON-LD block whose content, after the sanitizer's two
control-character strips, is valid JSON with no doubled backslash parses
successfully after full sanitization (the collapse changes nothing); and a
block unparseable even after sanitization is skipped locally, the scan
continuing with the remaining blocks. -/
theorem jsonLd_sanitize_amended :
    (∀ (content : String) (v : Json),
      Json.jsonParse (SchemaDetector.stripControls content) = some v →
      noDoubledBackslash (SchemaDetector.stripControls content).data = true →
      Json.jsonParse (SchemaDetector.sanitizeJsonLdContent content) = some v) ∧
    (∀ (s : String) (rest : List String),
      JsPrim.jsTrim s ≠ "" →
      Json.jsonParse (SchemaDetector.sanitizeJsonLdContent (JsPrim.jsTrim s)) = none →
      SchemaDetector.extractJsonLdFromContents (s :: rest) =
        SchemaDetector.extractJsonLdFromContents rest) := by
  constructor
  · intro content v hp hnd
    have hs : SchemaDetector.sanitizeJsonLdContent content =
        SchemaDetector.stripControls content := by
      unfold SchemaDetector.sanitizeJsonLdContent
      rw [collapseDoubled_id _ hnd]
    rw [hs]
    exact hp
  · intro s rest hne hparse
    conv_lhs => rw [SchemaDetector.extractJsonLdFromContents]
    simp only [hne, if_neg, hparse]
    simp

/-- C8 witness: a block with a raw U+0001 parses to the expected object
after sanitization. -/
theorem jsonLd_sanitize_amended_witness :
    Json.jsonParse (SchemaDetector.sanitizeJsonLdContent c8CtlJson) =
      some (Json.obj [("@type", Json.str "Product")]) :=
  jsonLd_sanitize_amended.1 c8CtlJson (Json.obj [("@type", Json.str "Product")])
    (by rfl) (by rfl)

/-! ## C7 — the product scenario crashes in `processProduct` -/

/-- C7: on the scenario input the classifier does return `'product'` and
the schema extractor does surface the price `"19.99"`, but the assembled
record is the error card — `processProduct` computes the price and then
calls `imageProcessor.extractProductImages`, which does not exist anywhere
in the image processor, so a `TypeError` aborts the branch and the
delivered record carries no price. -/
theorem product_scenario_price_bug :
    contentTypeDetector.detect (some c7Doc) "https://example.org/page" = "product" ∧
    SchemaDetector.extractSchema (some c7Doc) =
      some (Json.obj [("@type", Json.str "Product"),
                      ("offers", Json.obj [("price", Json.str "19.99")])]) ∧
    (ContentExtractor.extract c7Parser (.ok c7Html) "https://example.org/page" "" "T").contentType
      = "error" ∧
    (ContentExtractor.extract c7Parser (.ok c7Html) "https://example.org/page" "" "T").error
      = some ContentExtractor.extractProductImagesError ∧
    (ContentExtractor.extract c7Parser (.ok c7Html) "https://example.org/page" "" "T").price
      = none := by
  exact ⟨by rfl, by rfl, by rfl, by rfl, by rfl⟩

/-! ## C2 — summarizer length bound and emptiness -/

set_option maxRecDepth 4000 in
/-- C2 counterexample: when sentence splitting finds at most two sentences,
`summarize` returns the first sentence verbatim, so with a 24-character
single-sentence input and `maxChars = 20` the result is longer than
`maxChars`. -/
theorem summarize_maxChars_cex :
    textSummarizer.summarize c2Text 3 20 = c2Text ∧
    ¬ ((textSummarizer.summarize c2Text 3 20).length ≤ 20) ∧
    c2Text ≠ "" := by
  exact ⟨by decide, by decide, by decide⟩

namespace textSummarizer

open JsPrim

theorem jsSubstr_length (s : String) (n : Nat) :
    (jsSubstr s n).length = min n s.length := by
  show (s.data.take n).length = _
  simp [List.length_take]

theorem str_ne_empty_of_length_pos {s : String} (h : 0 < s.length) : s ≠ "" := by
  intro he
  rw [he] at h
  simp at h

theorem truncateCore_length (tr : String) (c : Nat) :
    (truncateCore tr c).length ≤ tr.length + 3 := by
  unfold truncateCore
  dsimp only
  split
  · rw [jsSubstr_length]
    omega
  · split
    · split
      · rw [String.length_append, jsSubstr_length]
        have : ("..." : String).length = 3 := by decide
        omega
      · rw [String.length_append]
        have : ("..." : String).length = 3 := by decide
        omega
    · rw [String.length_append]
      have : ("..." : String).length = 3 := by decide
      omega

theorem truncateCore_ne_empty (tr : String) (c : Nat) (h : 1 ≤ tr.length) :
    truncateCore tr c ≠ "" := by
  unfold truncateCore
  dsimp only
  split
  · apply str_ne_empty_of_length_pos
    rw [jsSubstr_length]
    rename_i hb
    omega
  · split
    · split
      · apply str_ne_empty_of_length_pos
        rw [String.length_append]
        have : ("..." : String).length = 3 := by decide
        omega
      · apply str_ne_empty_of_length_pos
        rw [String.length_append]
        have : ("..." : String).length = 3 := by decide
        omega
    · apply str_ne_empty_of_length_pos
      rw [String.length_append]
      have : ("..." : String).length = 3 := by decide
      omega

theorem truncateToFit_length (t : String) (c : Nat) :
    (truncateToFit t c).length ≤ c + 3 := by
  unfold truncateToFit
  split
  · simp
  · split
    · rename_i h
      omega
    · rename_i hne hgt
      have := truncateCore_length (jsSubstr t c) c
      rw [jsSubstr_length] at this
      omega

theorem truncateToFit_ne_empty (t : String) (c : Nat) (h1 : t ≠ "") (h2 : 1 ≤ c) :
    truncateToFit t c ≠ "" := by
  unfold truncateToFit
  split
  · rename_i h
    exact absurd h h1
  · split
    · exact h1
    · rename_i hne hgt
      apply truncateCore_ne_empty
      rw [jsSubstr_length]
      push_neg at hgt
      omega

theorem mem_splitIntoSentences_length {text s : String}
    (h : s ∈ splitIntoSentences text) : 10 < s.length := by
  unfold splitIntoSentences at h
  split at h
  · simp at h
  · rw [List.mem_filter] at h
    have := h.2
    simp only [decide_eq_true_eq] at this
    exact this.1

theorem insertStable_length (le : α → α → Bool) (x : α) (l : List α) :
    (JsPrim.insertStable le x l).length = l.length + 1 := by
  induction l with
  | nil => rfl
  | cons y t ih =>
    rw [JsPrim.insertStable]
    split
    · simp [ih]
    · simp

theorem insertStable_mem (le : α → α → Bool) (x a : α) (l : List α) :
    a ∈ JsPrim.insertStable le x l ↔ a = x ∨ a ∈ l := by
  induction l with
  | nil => simp [JsPrim.insertStable]
  | cons y t ih =>
    rw [JsPrim.insertStable]
    split
    · simp only [List.mem_cons, ih]
      try tauto
    · simp only [List.mem_cons]
      try tauto

theorem jsSortBy_length (le : α → α → Bool) (l : List α) :
    (JsPrim.jsSortBy le l).length = l.length := by
  unfold JsPrim.jsSortBy
  have : ∀ (l : List α) (acc : List α),
      (l.foldl (fun acc x => JsPrim.insertStable le x acc) acc).length =
        acc.length + l.length := by
    intro l
    induction l with
    | nil => intro acc; simp
    | cons x t ih =>
      intro acc
      rw [List.foldl_cons, ih, insertStable_length]
      simp only [List.length_cons]
      omega
  simpa using this l []

theorem jsSortBy_mem (le : α → α → Bool) (a : α) (l : List α) :
    a ∈ JsPrim.jsSortBy le l ↔ a ∈ l := by
  unfold JsPrim.jsSortBy
  have : ∀ (l : List α) (acc : List α),
      (a ∈ l.foldl (fun acc x => JsPrim.insertStable le x acc) acc) ↔
        a ∈ acc ∨ a ∈ l := by
    intro l
    induction l with
    | nil => intro acc; simp
    | cons x t ih =>
      intro acc
      rw [List.foldl_cons, ih, insertStable_mem]
      simp only [List.mem_cons]
      tauto
  simpa using this l []

theorem joinSp_head_length (x : String) (l : List String) :
    x.length ≤ (JsPrim.joinSp (x :: l)).length := by
  cases l with
  | nil => simp [JsPrim.joinSp]
  | cons y rest =>
    rw [JsPrim.joinSp, String.length_append, String.length_append]
    omega

theorem snd_mem_of_mem_enum {l : List α} {p : Nat × α} (h : p ∈ l.enum) :
    p.2 ∈ l := by
  have := List.enum_map_snd l
  rw [← this]
  exact List.mem_map_of_mem Prod.snd h

end textSummarizer

namespace textSummarizer

/-- The selected summary starts with a sentence of the input list, so it is
at least that long. -/
theorem selectedSummary_shape (text : String) (sentences : List String)
    (maxS : Nat) (hS : 1 ≤ maxS) (h3 : 3 ≤ sentences.length)
    (hlen : ∀ s ∈ sentences, 10 < s.length) :
    10 < (selectedSummary text sentences maxS).length := by
  unfold selectedSummary
  dsimp only
  set freq := calculateWordFrequency text with hfreq
  set scored := sentences.enum.map (fun si =>
    Scored.mk si.2 (scoreSentence si.2 freq si.1 sentences.length) si.1) with hscored
  set sorted := JsPrim.jsSortBy (fun a b => decide (b.score ≤ a.score)) scored with hsorted
  set top1 := sorted.take (min maxS sentences.length) with htop1
  set top2 := JsPrim.jsSortBy (fun a b => decide (a.index ≤ b.index)) top1 with htop2
  have l1 : scored.length = sentences.length := by
    rw [hscored]
    simp [List.enum_length]
  have l2 : sorted.length = sentences.length := by
    rw [hsorted, jsSortBy_length, l1]
  have l3 : top1.length = min maxS sentences.length := by
    rw [htop1, List.length_take, l2]
    omega
  have l4 : top2.length = min maxS sentences.length := by
    rw [htop2, jsSortBy_length, l3]
  have hpos : 0 < top2.length := by omega
  rcases hm : top2.map (fun sc => sc.sentence) with _ | ⟨s, rest⟩
  · have : top2.length = 0 := by
      have := congrArg List.length hm
      simpa using this
    omega
  · have hsent : s ∈ sentences := by
      have hsmem : s ∈ top2.map (fun sc => sc.sentence) := by
        rw [hm]
        simp
      rw [List.mem_map] at hsmem
      obtain ⟨sc, hsc, hval⟩ := hsmem
      rw [htop2, jsSortBy_mem] at hsc
      have hsc' : sc ∈ sorted := List.take_subset _ _ (htop1 ▸ hsc)
      rw [hsorted, jsSortBy_mem, hscored] at hsc'
      rw [List.mem_map] at hsc'
      obtain ⟨si, hsi, hmk⟩ := hsc'
      have : sc.sentence = si.2 := by
        rw [← hmk]
      rw [← hval, this]
      exact snd_mem_of_mem_enum hsi
    have := hlen s hsent
    calc 10 < s.length := this
    _ ≤ (JsPrim.joinSp (s :: rest)).length := joinSp_head_length s rest
    _ = (JsPrim.joinSp (top2.map (fun sc => sc.sentence))).length := by rw [hm]

end textSummarizer

/-- C2 (amended): for positive `maxSentences` and `maxChars`, the summary
is empty exactly when the input text is empty; the `≤ maxChars` bound only
holds up to the truncation slack — when sentence splitting found no
sentence, or more than two (so that truncation applies), the result length
is at most `maxChars + 3` (the `'...'` suffix may overshoot by three) —
while a one-or-two–sentence split returns the first sentence verbatim, with
no bound in terms of `maxChars`. -/
theorem summarize_contract_amended (text : String) (maxS maxC : Nat)
    (hS : 1 ≤ maxS) (hC : 1 ≤ maxC) :
    ((textSummarizer.summarize text maxS maxC) = "" ↔ text = "") ∧
    ((textSummarizer.splitIntoSentences text).length = 0 ∨
      2 < (textSummarizer.splitIntoSentences text).length →
      (textSummarizer.summarize text maxS maxC).length ≤ maxC + 3) := by
  by_cases hne : text = ""
  · subst hne
    exact ⟨by simp [textSummarizer.summarize], fun _ => by simp [textSummarizer.summarize]⟩
  · by_cases hz : (textSummarizer.splitIntoSentences text).length = 0
    · have hs : textSummarizer.summarize text maxS maxC =
          textSummarizer.truncateToFit text maxC := by
        unfold textSummarizer.summarize
        rw [if_neg hne]
        dsimp only
        rw [if_pos hz]
      refine ⟨⟨?_, fun h => absurd h hne⟩, fun _ => ?_⟩
      · intro h
        rw [hs] at h
        exact absurd h (textSummarizer.truncateToFit_ne_empty text maxC hne hC)
      · rw [hs]
        exact textSummarizer.truncateToFit_length text maxC
    · by_cases h2 : (textSummarizer.splitIntoSentences text).length ≤ 2
      · have hs : textSummarizer.summarize text maxS maxC =
            (textSummarizer.splitIntoSentences text).headD "" := by
          unfold textSummarizer.summarize
          rw [if_neg hne]
          dsimp only
          rw [if_neg hz, if_pos h2]
        rcases hl : textSummarizer.splitIntoSentences text with _ | ⟨s, rest⟩
        · rw [hl] at hz
          simp at hz
        · have hslen : 10 < s.length :=
            textSummarizer.mem_splitIntoSentences_length (by rw [hl]; simp)
          refine ⟨⟨?_, fun h => absurd h hne⟩, fun hcase => ?_⟩
          · intro h
            rw [hs, hl] at h
            simp only [List.headD] at h
            exact absurd h (textSummarizer.str_ne_empty_of_length_pos (by omega))
          · rcases hcase with h | h
            · simp at h
            · have hll := congrArg List.length hl
              simp only [List.length_cons] at hll h
              omega
      · push_neg at h2
        have hall : ∀ s ∈ textSummarizer.splitIntoSentences text, 10 < s.length :=
          fun s hs => textSummarizer.mem_splitIntoSentences_length hs
        have hsel := textSummarizer.selectedSummary_shape text
          (textSummarizer.splitIntoSentences text) maxS hS (by omega) hall
        have hs : textSummarizer.summarize text maxS maxC =
            (if (textSummarizer.selectedSummary text
                  (textSummarizer.splitIntoSentences text) maxS).length > maxC then
              textSummarizer.truncateToFit
                (textSummarizer.selectedSummary text
                  (textSummarizer.splitIntoSentences text) maxS) maxC
            else
              textSummarizer.selectedSummary text
                (textSummarizer.splitIntoSentences text) maxS) := by
          unfold textSummarizer.summarize
          rw [if_neg hne]
          dsimp only
          rw [if_neg hz, if_neg (by omega)]
        refine ⟨⟨?_, fun h => absurd h hne⟩, fun _ => ?_⟩
        · intro h
          rw [hs] at h
          by_cases hgt : (textSummarizer.selectedSummary text
              (textSummarizer.splitIntoSentences text) maxS).length > maxC
          · rw [if_pos hgt] at h
            refine absurd h (textSummarizer.truncateToFit_ne_empty _ maxC ?_ hC)
            exact textSummarizer.str_ne_empty_of_length_pos (by omega)
          · rw [if_neg hgt] at h
            exact absurd h (textSummarizer.str_ne_empty_of_length_pos (by omega))
        · rw [hs]
          by_cases hgt : (textSummarizer.selectedSummary text
              (textSummarizer.splitIntoSentences text) maxS).length > maxC
          · rw [if_pos hgt]
            exact textSummarizer.truncateToFit_length _ maxC
          · rw [if_neg hgt]
            omega

/-- C2 witness: a three-sentence text keeps the bound `maxChars + 3` and is
nonempty. -/
theorem summarize_contract_amended_witness :
    ((textSummarizer.summarize
        "Hello there my friend. This is a second sentence here. And a third one follows now."
        3 280) = "" ↔
      ("Hello there my friend. This is a second sentence here. And a third one follows now." :
        String) = "") ∧
    ((textSummarizer.splitIntoSentences
        "Hello there my friend. This is a second sentence here. And a third one follows now.").length = 0 ∨
      2 < (textSummarizer.splitIntoSentences
        "Hello there my friend. This is a second sentence here. And a third one follows now.").length →
      (textSummarizer.summarize
        "Hello there my friend. This is a second sentence here. And a third one follows now."
        3 280).length ≤ 283) :=
  summarize_contract_amended
    "Hello there my friend. This is a second sentence here. And a third one follows now."
    3 280 (by decide) (by decide)

/-- C1: the orchestrator's `extract` is total (a Lean function on all
inputs), and whenever the pipeline body (`extractCore`) throws, the
delivered record is exactly the `catch`-block record: contentType
`"error"`, the raw message in `error`, and a user-facing description chosen
by `userErrorInfo`'s category matching; in particular an empty-string HTML
fetch yields the error-typed record with the generic fallback message
rather than a throw. -/
theorem extract_error_contract (parser : String → Dom)
    (fetched : Except String String) (url text nowIso : String) :
    (∀ e, ContentExtractor.extractCore parser fetched url text nowIso = .error e →
      ContentExtractor.extract parser fetched url text nowIso =
        ContentExtractor.errorPreview url text e ∧
      (ContentExtractor.extract parser fetched url text nowIso).contentType = "error" ∧
      (ContentExtractor.extract parser fetched url text nowIso).error = some e ∧
      (ContentExtractor.extract parser fetched url text nowIso).description =
        some (ContentExtractor.userErrorInfo text e).2) ∧
    (fetched = .ok "" →
      (ContentExtractor.extract parser fetched url text nowIso).contentType = "error" ∧
      (ContentExtractor.extract parser fetched url text nowIso).error =
        some "Empty content received from URL" ∧
      (ContentExtractor.extract parser fetched url text nowIso).description =
        some "Unable to load preview for this link.") := by
  constructor
  · intro e he
    have hx : ContentExtractor.extract parser fetched url text nowIso =
        ContentExtractor.errorPreview url text e := by
      unfold ContentExtractor.extract
      rw [he]
    exact ⟨hx, by rw [hx]; rfl, by rw [hx]; rfl, by rw [hx]; rfl⟩
  · intro hf
    subst hf
    have he : ContentExtractor.extractCore parser (.ok "") url text nowIso =
        .error "Empty content received from URL" := by rfl
    have hx : ContentExtractor.extract parser (.ok "") url text nowIso =
        ContentExtractor.errorPreview url text "Empty content received from URL" := by
      unfold ContentExtractor.extract
      rw [he]
    have hmsg : (ContentExtractor.userErrorInfo text
        "Empty content received from URL").2 =
        "Unable to load preview for this link." := by
      unfold ContentExtractor.userErrorInfo
      dsimp only
      rw [if_neg (by decide), if_neg (by decide), if_neg (by decide),
        if_neg (by decide), if_neg (by decide), if_neg (by decide),
        if_neg (by decide), if_neg (by decide)]
    refine ⟨by rw [hx]; rfl, by rw [hx]; rfl, ?_⟩
    rw [hx]
    show some (ContentExtractor.userErrorInfo text
      "Empty content received from URL").2 = _
    rw [hmsg]

/-- C1 witness: an empty fetched HTML string yields the error record with
the generic fallback description, at concrete inputs. -/
theorem extract_error_contract_witness :
    (ContentExtractor.extract (fun _ => emptyDoc) (.ok "")
      "https://example.com/a" "" "2024-01-01T00:00:00Z").contentType = "error" ∧
    (ContentExtractor.extract (fun _ => emptyDoc) (.ok "")
      "https://example.com/a" "" "2024-01-01T00:00:00Z").error =
      some "Empty content received from URL" ∧
    (ContentExtractor.extract (fun _ => emptyDoc) (.ok "")
      "https://example.com/a" "" "2024-01-01T00:00:00Z").description =
      some "Unable to load preview for this link." :=
  (extract_error_contract (fun _ => emptyDoc) (.ok "")
    "https://example.com/a" "" "2024-01-01T00:00:00Z").2 rfl
